import Mathlib

/-!
A shallow embedding of the MCPX APU emulation core (`hw/xbox/mcpx_apu.c`)
together with proofs about its register file, interrupt arbiter, front-end
method engine, scatter/gather DMA and frame scheduler.

Guest physical memory is modelled as a byte store `Nat → Nat` (every
C-visible access truncates bytes to 8 bits), device registers as word
stores indexed by byte offset, and machine integers as `Nat` with explicit
`% 2 ^ 32` where the C code truncates.  C `assert` failures and the
`assert(false)` branches abort the device, so every function that can hit
one returns `Option`; `none` is the aborted run.  The `while` loops of the
DMA engine and of the frame scheduler are embedded with an explicit fuel
argument chosen by the callers to dominate the loop's own variant, so all
definitions compute by kernel reduction.
-/

namespace MCPXAPU

/-- Pointwise update of an address-indexed store. -/
def upd (f : Nat → Nat) (a v : Nat) : Nat → Nat :=
  fun x => if x = a then v else f x

/-- Little-endian 32-bit load from byte memory (`ldl_le_phys`). -/
def ldl (m : Nat → Nat) (a : Nat) : Nat :=
  m a % 256 + m (a + 1) % 256 * 0x100 + m (a + 2) % 256 * 0x10000 +
    m (a + 3) % 256 * 0x1000000

/-- Little-endian 32-bit store to byte memory (`stl_le_phys`). -/
def stl (m : Nat → Nat) (a v : Nat) : Nat → Nat :=
  fun x =>
    if x = a then v % 256
    else if x = a + 1 then v / 0x100 % 256
    else if x = a + 2 then v / 0x10000 % 256
    else if x = a + 3 then v / 0x1000000 % 256
    else m x

/-- Count of trailing zeros of a 32-bit value, 32 for input 0 (`ctz32`). -/
def ctz32 (n : Nat) : Nat :=
  (List.range 32).findIdx fun i => n.testBit i

/-- The C macro `GET_MASK(v, mask)`. -/
def GET_MASK (v mask : Nat) : Nat :=
  (v &&& mask) >>> ctz32 mask

/-- The C macro `SET_MASK(v, mask, val)` (on a 32-bit lvalue). -/
def SET_MASK (v mask val : Nat) : Nat :=
  (v &&& (0xFFFFFFFF ^^^ mask)) ||| ((val <<< ctz32 mask) &&& mask)

/-! Register offsets and fields, copied from the `NV_PAPU_*` defines. -/

def NV_PAPU_ISTS : Nat := 0x00001000
def NV_PAPU_ISTS_GINTSTS : Nat := 1 <<< 0
def NV_PAPU_ISTS_FETINTSTS : Nat := 1 <<< 4
def NV_PAPU_IEN : Nat := 0x00001004
def NV_PAPU_FECTL : Nat := 0x00001100
def NV_PAPU_FECTL_FEMETHMODE : Nat := 0x000000E0
def NV_PAPU_FECTL_FEMETHMODE_TRAPPED : Nat := 0x000000E0
def NV_PAPU_FECTL_FETRAPREASON : Nat := 0x00000F00
def NV_PAPU_FECTL_FETRAPREASON_REQUESTED : Nat := 0x00000F00
def NV_PAPU_FECV : Nat := 0x00001110
def NV_PAPU_FEAV : Nat := 0x00001118
def NV_PAPU_FEAV_VALUE : Nat := 0x0000FFFF
def NV_PAPU_FEAV_LST : Nat := 0x00030000
def NV_PAPU_FEDECMETH : Nat := 0x00001300
def NV_PAPU_FEDECPARAM : Nat := 0x00001304
def NV_PAPU_FEMEMADDR : Nat := 0x00001324
def NV_PAPU_FEMEMDATA : Nat := 0x00001334
def NV_PAPU_FETFORCE1 : Nat := 0x00001504
def NV_PAPU_FETFORCE1_SE2FE_IDLE_VOICE : Nat := 1 <<< 15
def NV_PAPU_SECTL : Nat := 0x00002000
def NV_PAPU_SECTL_XCNTMODE : Nat := 0x00000018
def NV_PAPU_SECTL_XCNTMODE_OFF : Nat := 0
def NV_PAPU_VPVADDR : Nat := 0x0000202C
def NV_PAPU_TVL2D : Nat := 0x00002054
def NV_PAPU_CVL2D : Nat := 0x00002058
def NV_PAPU_NVL2D : Nat := 0x0000205C
def NV_PAPU_TVL3D : Nat := 0x00002060
def NV_PAPU_CVL3D : Nat := 0x00002064
def NV_PAPU_NVL3D : Nat := 0x00002068
def NV_PAPU_TVLMP : Nat := 0x0000206C
def NV_PAPU_CVLMP : Nat := 0x00002070
def NV_PAPU_NVLMP : Nat := 0x00002074

def NV_PAPU_GPXMEM : Nat := 0x00000000
def NV_PAPU_GPMIXBUF : Nat := 0x00005000
def NV_PAPU_GPYMEM : Nat := 0x00006000
def NV_PAPU_GPPMEM : Nat := 0x0000A000
def NV_PAPU_GPRST : Nat := 0x0000FFFC
def NV_PAPU_GPRST_GPRST : Nat := 1 <<< 0
def NV_PAPU_GPRST_GPDSPRST : Nat := 1 <<< 1

def NV_PAPU_EPXMEM : Nat := 0x00000000
def NV_PAPU_EPYMEM : Nat := 0x00006000
def NV_PAPU_EPPMEM : Nat := 0x0000A000
def NV_PAPU_EPRST : Nat := 0x0000FFFC

def NV1BA0_PIO_FREE : Nat := 0x00000010
def NV1BA0_PIO_SET_ANTECEDENT_VOICE : Nat := 0x00000120
def NV1BA0_PIO_SET_ANTECEDENT_VOICE_LIST_INHERIT : Nat := 0
def NV1BA0_PIO_VOICE_ON : Nat := 0x00000124
def NV1BA0_PIO_VOICE_ON_HANDLE : Nat := 0x0000FFFF
def NV1BA0_PIO_VOICE_OFF : Nat := 0x00000128
def NV1BA0_PIO_VOICE_OFF_HANDLE : Nat := 0x0000FFFF
def NV1BA0_PIO_VOICE_PAUSE : Nat := 0x00000140
def NV1BA0_PIO_VOICE_PAUSE_HANDLE : Nat := 0x0000FFFF
def NV1BA0_PIO_VOICE_PAUSE_ACTION : Nat := 1 <<< 18
def NV1BA0_PIO_SET_CURRENT_VOICE : Nat := 0x000002F8

def SE2FE_IDLE_VOICE : Nat := 0x00008000

def NV_PAVS_SIZE : Nat := 0x00000080
def NV_PAVS_VOICE_PAR_STATE : Nat := 0x00000054
def NV_PAVS_VOICE_PAR_STATE_PAUSED : Nat := 1 <<< 18
def NV_PAVS_VOICE_PAR_STATE_ACTIVE_VOICE : Nat := 1 <<< 21
def NV_PAVS_VOICE_TAR_PITCH_LINK : Nat := 0x0000007C
def NV_PAVS_VOICE_TAR_PITCH_LINK_NEXT_VOICE_HANDLE : Nat := 0x0000FFFF

def GP_DSP_MIXBUF_BASE : Nat := 0x001400

def TARGET_PAGE_SIZE : Nat := 4096

/-! ## Scatter/gather DMA (`scatter_gather_rw`, `circular_scatter_gather_rw`)

The two directions of `scatter_gather_rw` are embedded separately:
`dir = true` (write to guest) mutates the byte store, `dir = false`
(read from guest) produces the bytes.  The `assert`s of the source
(`page_entry <= max_sge`, the guest-RAM bound, and the window asserts of
the circular variant) become `Option` guards. -/

/-- Store a list of bytes at consecutive addresses (`memcpy` into guest RAM). -/
def storeBytes (m : Nat → Nat) (a : Nat) : List Nat → (Nat → Nat)
  | [] => m
  | b :: bs => storeBytes (upd m a (b % 256)) (a + 1) bs

/-- Load `n` bytes from consecutive addresses (`memcpy` out of guest RAM). -/
def loadBytes (m : Nat → Nat) (a n : Nat) : List Nat :=
  (List.range n).map fun i => m (a + i) % 256

/-- Loop body of `scatter_gather_rw` in the guest-write direction.  One fuel
unit per loop iteration; the wrappers pass the transfer length, which
dominates the iteration count. -/
def sg_wr_aux (ramSize sge_base max_sge : Nat) :
    Nat → (Nat → Nat) → Nat → Nat → List Nat → Option (Nat → Nat)
  | 0, m, _, _, buf => if buf.isEmpty then some m else none
  | fuel + 1, m, page_entry, offset_in_page, buf =>
    if buf.isEmpty then some m
    else if page_entry ≤ max_sge then
      let prd_address := ldl m (sge_base + page_entry * 8)
      let bytes_to_copy := min (TARGET_PAGE_SIZE - offset_in_page) buf.length
      let paddr := prd_address + offset_in_page
      if paddr + bytes_to_copy < ramSize then
        sg_wr_aux ramSize sge_base max_sge fuel
          (storeBytes m paddr (buf.take bytes_to_copy))
          (page_entry + 1) 0 (buf.drop bytes_to_copy)
      else none
    else none

/-- Loop body of `scatter_gather_rw` in the guest-read direction. -/
def sg_rd_aux (ramSize sge_base max_sge : Nat) :
    Nat → (Nat → Nat) → Nat → Nat → Nat → Option (List Nat)
  | 0, _, _, _, len => if len = 0 then some [] else none
  | fuel + 1, m, page_entry, offset_in_page, len =>
    if len = 0 then some []
    else if page_entry ≤ max_sge then
      let prd_address := ldl m (sge_base + page_entry * 8)
      let bytes_to_copy := min (TARGET_PAGE_SIZE - offset_in_page) len
      let paddr := prd_address + offset_in_page
      if paddr + bytes_to_copy < ramSize then do
        let rest ← sg_rd_aux ramSize sge_base max_sge fuel m
          (page_entry + 1) 0 (len - bytes_to_copy)
        some (loadBytes m paddr bytes_to_copy ++ rest)
      else none
    else none

/-- The linear primitive, guest-write direction (`scatter_gather_rw` with
`dir = true`). -/
def scatter_gather_write (ramSize : Nat) (m : Nat → Nat)
    (sge_base max_sge addr : Nat) (buf : List Nat) : Option (Nat → Nat) :=
  sg_wr_aux ramSize sge_base max_sge buf.length m
    (addr / TARGET_PAGE_SIZE) (addr % TARGET_PAGE_SIZE) buf

/-- The linear primitive, guest-read direction (`scatter_gather_rw` with
`dir = false`). -/
def scatter_gather_read (ramSize : Nat) (m : Nat → Nat)
    (sge_base max_sge addr len : Nat) : Option (List Nat) :=
  sg_rd_aux ramSize sge_base max_sge len m
    (addr / TARGET_PAGE_SIZE) (addr % TARGET_PAGE_SIZE) len

/-- Loop body of `circular_scatter_gather_rw`, guest-write direction. -/
def csg_wr_aux (ramSize sge_base max_sge base e : Nat) :
    Nat → (Nat → Nat) → Nat → List Nat → Option ((Nat → Nat) × Nat)
  | 0, m, cur, buf => if buf.isEmpty then some (m, cur) else none
  | fuel + 1, m, cur, buf =>
    if buf.isEmpty then some (m, cur)
    else
      let bytes_to_copy := min (e - cur) buf.length
      if base ≤ cur ∧ cur + bytes_to_copy ≤ e then do
        let m' ← scatter_gather_write ramSize m sge_base max_sge cur
          (buf.take bytes_to_copy)
        let cur' := cur + bytes_to_copy
        if e ≤ cur' then
          if cur' = e then
            csg_wr_aux ramSize sge_base max_sge base e fuel m' base
              (buf.drop bytes_to_copy)
          else none
        else
          csg_wr_aux ramSize sge_base max_sge base e fuel m' cur'
            (buf.drop bytes_to_copy)
      else none

/-- Loop body of `circular_scatter_gather_rw`, guest-read direction. -/
def csg_rd_aux (ramSize sge_base max_sge base e : Nat) :
    Nat → (Nat → Nat) → Nat → Nat → Option (List Nat × Nat)
  | 0, _, cur, len => if len = 0 then some ([], cur) else none
  | fuel + 1, m, cur, len =>
    if len = 0 then some ([], cur)
    else
      let bytes_to_copy := min (e - cur) len
      if base ≤ cur ∧ cur + bytes_to_copy ≤ e then do
        let chunk ← scatter_gather_read ramSize m sge_base max_sge cur
          bytes_to_copy
        let cur' := cur + bytes_to_copy
        let rest ←
          if e ≤ cur' then
            if cur' = e then
              csg_rd_aux ramSize sge_base max_sge base e fuel m base
                (len - bytes_to_copy)
            else none
          else
            csg_rd_aux ramSize sge_base max_sge base e fuel m cur'
              (len - bytes_to_copy)
        some (chunk ++ rest.1, rest.2)
      else none

/-- `circular_scatter_gather_rw` with `dir = true`: returns the new byte
store and the new `cur`. -/
def circular_scatter_gather_write (ramSize : Nat) (m : Nat → Nat)
    (sge_base max_sge base e cur : Nat) (buf : List Nat) :
    Option ((Nat → Nat) × Nat) :=
  csg_wr_aux ramSize sge_base max_sge base e buf.length m cur buf

/-- `circular_scatter_gather_rw` with `dir = false`: returns the bytes read
and the new `cur`. -/
def circular_scatter_gather_read (ramSize : Nat) (m : Nat → Nat)
    (sge_base max_sge base e cur len : Nat) : Option (List Nat × Nat) :=
  csg_rd_aux ramSize sge_base max_sge base e len m cur len

/-! ## Device state and register model -/

/-- The device state visible to this core: the top-level register file
`regs` (`d->regs`, indexed by byte offset, 32-bit words), the GP and EP
local register shadows (`d->gp.regs`, `d->ep.regs`), guest physical RAM as
a byte store, the PCI interrupt line level, and whether the frame timer is
armed. -/
structure APUState where
  regs : Nat → Nat
  gpRegs : Nat → Nat
  epRegs : Nat → Nat
  mem : Nat → Nat
  irq : Bool
  frameTimerArmed : Bool

/-- The branch condition of `update_irq`: bit `GINTSTS` of `IEN` is set and
some enabled non-`GINTSTS` status bit is pending. -/
def irq_cond (s : APUState) : Prop :=
  (s.regs NV_PAPU_IEN &&& NV_PAPU_ISTS_GINTSTS) ≠ 0 ∧
    ((s.regs NV_PAPU_ISTS &&& (0xFFFFFFFF ^^^ NV_PAPU_ISTS_GINTSTS)) &&&
      s.regs NV_PAPU_IEN) ≠ 0

instance (s : APUState) : Decidable (irq_cond s) := by
  unfold irq_cond; infer_instance

/-- The interrupt arbiter `update_irq`. -/
def update_irq (s : APUState) : APUState :=
  if irq_cond s then
    { s with
      regs := upd s.regs NV_PAPU_ISTS
        (s.regs NV_PAPU_ISTS ||| NV_PAPU_ISTS_GINTSTS)
      irq := true }
  else
    { s with
      regs := upd s.regs NV_PAPU_ISTS
        (s.regs NV_PAPU_ISTS &&& (0xFFFFFFFF ^^^ NV_PAPU_ISTS_GINTSTS))
      irq := false }

/-- Guest MMIO write into the top region (`mcpx_apu_write`; the stored cell
is a `uint32_t`, hence the `% 2 ^ 32`). -/
def mcpx_apu_write (s : APUState) (addr val : Nat) : APUState :=
  if addr = NV_PAPU_ISTS then
    update_irq { s with
      regs := upd s.regs NV_PAPU_ISTS
        (s.regs NV_PAPU_ISTS &&& (0xFFFFFFFF ^^^ (val % 0x100000000))) }
  else if addr = NV_PAPU_SECTL then
    { s with
      frameTimerArmed :=
        ((val &&& NV_PAPU_SECTL_XCNTMODE) >>> 3) != NV_PAPU_SECTL_XCNTMODE_OFF
      regs := upd s.regs addr (val % 0x100000000) }
  else if addr = NV_PAPU_FEMEMDATA then
    { s with
      mem := stl s.mem (s.regs NV_PAPU_FEMEMADDR) val
      regs := upd s.regs addr (val % 0x100000000) }
  else if addr < 0x20000 then
    { s with regs := upd s.regs addr (val % 0x100000000) }
  else s

/-- The `voice_list_regs` table. -/
structure VoiceListRegs where
  top : Nat
  current : Nat
  next : Nat

/-- The `voice_list_regs` array (2D, 3D, MP). -/
def voice_list_regs : Nat → VoiceListRegs
  | 0 => ⟨NV_PAPU_TVL2D, NV_PAPU_CVL2D, NV_PAPU_NVL2D⟩
  | 1 => ⟨NV_PAPU_TVL3D, NV_PAPU_CVL3D, NV_PAPU_NVL3D⟩
  | _ => ⟨NV_PAPU_TVLMP, NV_PAPU_CVLMP, NV_PAPU_NVLMP⟩

/-- `voice_get_mask`: read a field of a guest-memory voice record; the
`assert(voice_handle < 0xFFFF)` is the `Option` guard. -/
def voice_get_mask (s : APUState) (voice_handle offset mask : Nat) :
    Option Nat :=
  if voice_handle < 0xFFFF then
    some (GET_MASK
      (ldl s.mem (s.regs NV_PAPU_VPVADDR + voice_handle * NV_PAVS_SIZE + offset))
      mask)
  else none

/-- `voice_set_mask`: read-modify-write a field of a guest-memory voice
record. -/
def voice_set_mask (s : APUState) (voice_handle offset mask val : Nat) :
    Option APUState :=
  if voice_handle < 0xFFFF then
    let a := s.regs NV_PAPU_VPVADDR + voice_handle * NV_PAVS_SIZE + offset
    let v := ldl s.mem a &&& (0xFFFFFFFF ^^^ mask)
    some { s with mem := stl s.mem a (v ||| ((val <<< ctz32 mask) &&& mask)) }
  else none

/-- The front-end method engine `fe_method`.  The `assert(false)` branches
(unknown method, inherit-insert with null antecedent, idle-voice without
its enable bit) and the voice-handle asserts return `none`. -/
def fe_method (s0 : APUState) (method argument : Nat) : Option APUState :=
  let s := { s0 with
    regs := upd (upd s0.regs NV_PAPU_FEDECMETH method) NV_PAPU_FEDECPARAM
      argument }
  if method = NV1BA0_PIO_SET_ANTECEDENT_VOICE then
    some { s with regs := upd s.regs NV_PAPU_FEAV argument }
  else if method = NV1BA0_PIO_VOICE_ON then do
    let selected_handle := argument &&& NV1BA0_PIO_VOICE_ON_HANDLE
    let list := GET_MASK (s.regs NV_PAPU_FEAV) NV_PAPU_FEAV_LST
    let s2 ←
      if list ≠ NV1BA0_PIO_SET_ANTECEDENT_VOICE_LIST_INHERIT then do
        let top_reg := (voice_list_regs (list - 1)).top
        let s1 ← voice_set_mask s selected_handle NV_PAVS_VOICE_TAR_PITCH_LINK
          NV_PAVS_VOICE_TAR_PITCH_LINK_NEXT_VOICE_HANDLE (s.regs top_reg)
        some { s1 with regs := upd s1.regs top_reg selected_handle }
      else do
        let antecedent_voice := GET_MASK (s.regs NV_PAPU_FEAV) NV_PAPU_FEAV_VALUE
        if antecedent_voice = 0xFFFF then none
        else do
          let next_handle ← voice_get_mask s antecedent_voice
            NV_PAVS_VOICE_TAR_PITCH_LINK
            NV_PAVS_VOICE_TAR_PITCH_LINK_NEXT_VOICE_HANDLE
          let s1 ← voice_set_mask s selected_handle
            NV_PAVS_VOICE_TAR_PITCH_LINK
            NV_PAVS_VOICE_TAR_PITCH_LINK_NEXT_VOICE_HANDLE next_handle
          voice_set_mask s1 antecedent_voice NV_PAVS_VOICE_TAR_PITCH_LINK
            NV_PAVS_VOICE_TAR_PITCH_LINK_NEXT_VOICE_HANDLE selected_handle
    voice_set_mask s2 selected_handle NV_PAVS_VOICE_PAR_STATE
      NV_PAVS_VOICE_PAR_STATE_ACTIVE_VOICE 1
  else if method = NV1BA0_PIO_VOICE_OFF then
    voice_set_mask s (argument &&& NV1BA0_PIO_VOICE_OFF_HANDLE)
      NV_PAVS_VOICE_PAR_STATE NV_PAVS_VOICE_PAR_STATE_ACTIVE_VOICE 0
  else if method = NV1BA0_PIO_VOICE_PAUSE then
    voice_set_mask s (argument &&& NV1BA0_PIO_VOICE_PAUSE_HANDLE)
      NV_PAVS_VOICE_PAR_STATE NV_PAVS_VOICE_PAR_STATE_PAUSED
      (if argument &&& NV1BA0_PIO_VOICE_PAUSE_ACTION ≠ 0 then 1 else 0)
  else if method = NV1BA0_PIO_SET_CURRENT_VOICE then
    some { s with regs := upd s.regs NV_PAPU_FECV argument }
  else if method = SE2FE_IDLE_VOICE then
    if s.regs NV_PAPU_FETFORCE1 &&& NV_PAPU_FETFORCE1_SE2FE_IDLE_VOICE ≠ 0 then
      let fectl1 :=
        (s.regs NV_PAPU_FECTL &&& (0xFFFFFFFF ^^^ NV_PAPU_FECTL_FEMETHMODE)) |||
          NV_PAPU_FECTL_FEMETHMODE_TRAPPED
      let fectl2 :=
        (fectl1 &&& (0xFFFFFFFF ^^^ NV_PAPU_FECTL_FETRAPREASON)) |||
          NV_PAPU_FECTL_FETRAPREASON_REQUESTED
      let s1 := { s with regs := upd s.regs NV_PAPU_FECTL fectl2 }
      let s2 := { s1 with
        regs := upd s1.regs NV_PAPU_ISTS
          (s1.regs NV_PAPU_ISTS ||| NV_PAPU_ISTS_FETINTSTS) }
      some (update_irq s2)
    else none
  else none

/-- Guest MMIO write into the VP command window (`vp_write`).  Only the
five recognized method offsets dispatch to `fe_method` (the argument is a
`uint32_t` parameter, hence the truncation); everything else falls through
to the empty `default` case. -/
def vp_write (s : APUState) (addr val : Nat) : Option APUState :=
  if addr = NV1BA0_PIO_SET_ANTECEDENT_VOICE ∨ addr = NV1BA0_PIO_VOICE_ON ∨
      addr = NV1BA0_PIO_VOICE_OFF ∨ addr = NV1BA0_PIO_VOICE_PAUSE ∨
      addr = NV1BA0_PIO_SET_CURRENT_VOICE then
    fe_method s addr (val % 0x100000000)
  else some s

/-! ## Processor reset handshake (`proc_rst_write`, `gp_write`) -/

/-- Which collaborator call `proc_rst_write` makes. -/
inductive ProcRstAction where
  | reset
  | bootstrap
  | noCall
  deriving DecidableEq

/-- `proc_rst_write` (both arguments are `uint32_t`). -/
def proc_rst_write (oldval val : Nat) : ProcRstAction :=
  if val &&& NV_PAPU_GPRST_GPRST = 0 ∨ val &&& NV_PAPU_GPRST_GPDSPRST = 0 then
    .reset
  else if (oldval &&& NV_PAPU_GPRST_GPRST = 0 ∨
        oldval &&& NV_PAPU_GPRST_GPDSPRST = 0) ∧
      (val &&& NV_PAPU_GPRST_GPRST ≠ 0 ∧ val &&& NV_PAPU_GPRST_GPDSPRST ≠ 0) then
    .bootstrap
  else
    .noCall

/-- Calls made by a GP-region write into the opaque signal processor. -/
inductive GPEv where
  | dspMemWrite (bank : Char) (addr val : Nat)
  | dspReset
  | dspBootstrap
  deriving DecidableEq

/-- Guest MMIO write into the GP region (`gp_write`): the four DSP memory
windows become collaborator calls, `NV_PAPU_GPRST` runs the reset
handshake and stores, anything else is plain storage. -/
def gp_write (regs : Nat → Nat) (addr val : Nat) : (Nat → Nat) × List GPEv :=
  if NV_PAPU_GPXMEM ≤ addr ∧ addr < NV_PAPU_GPXMEM + 0x1000 * 4 then
    (regs, [.dspMemWrite 'X' ((addr - NV_PAPU_GPXMEM) / 4) val])
  else if NV_PAPU_GPMIXBUF ≤ addr ∧ addr < NV_PAPU_GPMIXBUF + 0x400 * 4 then
    (regs, [.dspMemWrite 'X'
      (GP_DSP_MIXBUF_BASE + (addr - NV_PAPU_GPMIXBUF) / 4) val])
  else if NV_PAPU_GPYMEM ≤ addr ∧ addr < NV_PAPU_GPYMEM + 0x800 * 4 then
    (regs, [.dspMemWrite 'Y' ((addr - NV_PAPU_GPYMEM) / 4) val])
  else if NV_PAPU_GPPMEM ≤ addr ∧ addr < NV_PAPU_GPPMEM + 0x1000 * 4 then
    (regs, [.dspMemWrite 'P' ((addr - NV_PAPU_GPPMEM) / 4) val])
  else if addr = NV_PAPU_GPRST then
    (upd regs NV_PAPU_GPRST (val % 0x100000000),
      match proc_rst_write (regs NV_PAPU_GPRST) (val % 0x100000000) with
      | .reset => [.dspReset]
      | .bootstrap => [.dspBootstrap]
      | .noCall => [])
  else
    (upd regs addr (val % 0x100000000), [])

/-! ## Frame scheduler (`se_frame`) -/

/-- The per-frame mixbin buffer `int32_t mixbins[32][32]`. -/
def Mix : Type := Nat → Nat → Nat

/-- `process_voice` (its body is an unimplemented `FIXME`, so every voice
contributes silence). -/
def process_voice (mixbins : Mix) (_voice : Nat) : Mix :=
  mixbins

/-- Collaborator calls made by a frame tick. -/
inductive Ev where
  | dspWrite (gp : Bool) (bank : Char) (addr val : Nat)
  | dspStartFrame (gp : Bool)
  | dspRun (gp : Bool) (cycles : Nat)
  deriving DecidableEq

/-- One iteration of the voice-list `while` loop of `se_frame`. -/
def se_frame_voice_step (s : APUState) (mixbins : Mix)
    (curReg nextReg : Nat) : Option (APUState × Mix) := do
  let nxt ← voice_get_mask s (s.regs curReg) NV_PAVS_VOICE_TAR_PITCH_LINK
    NV_PAVS_VOICE_TAR_PITCH_LINK_NEXT_VOICE_HANDLE
  let s := { s with regs := upd s.regs nextReg nxt }
  let active ← voice_get_mask s (s.regs curReg) NV_PAVS_VOICE_PAR_STATE
    NV_PAVS_VOICE_PAR_STATE_ACTIVE_VOICE
  let (s, mixbins) ←
    if active = 0 then do
      let s' ← fe_method s SE2FE_IDLE_VOICE (s.regs curReg)
      some (s', mixbins)
    else
      some (s, process_voice mixbins (s.regs curReg))
  some ({ s with regs := upd s.regs curReg (s.regs nextReg) }, mixbins)

/-- The voice-list `while` loop of `se_frame`, with fuel. -/
def se_frame_list_aux (curReg nextReg : Nat) :
    Nat → APUState → Mix → Option (APUState × Mix)
  | 0, s, mixbins =>
    if s.regs curReg = 0xFFFF then some (s, mixbins) else none
  | fuel + 1, s, mixbins =>
    if s.regs curReg = 0xFFFF then some (s, mixbins)
    else do
      let (s', mixbins') ← se_frame_voice_step s mixbins curReg nextReg
      se_frame_list_aux curReg nextReg fuel s' mixbins'

/-- One `for (list = ...)` round of `se_frame`: reset the iterator to the
list top, then traverse. -/
def se_frame_one_list (fuel : Nat) (s : APUState) (mixbins : Mix)
    (l : VoiceListRegs) : Option (APUState × Mix) :=
  se_frame_list_aux l.current l.next fuel
    { s with regs := upd s.regs l.current (s.regs l.top) } mixbins

/-- The mix-publication loop of `se_frame`: one `dsp_write_memory` call per
(mixbin, sample) pair, in source order. -/
def mix_publish_evs (mixbins : Mix) : List Ev :=
  ((List.range 32).map fun mixbin =>
    (List.range 32).map fun sample =>
      Ev.dspWrite true 'X' (GP_DSP_MIXBUF_BASE + mixbin * 0x20 + sample)
        (mixbins mixbin sample &&& 0xFFFFFF)).flatten

/-- One frame tick (`se_frame`): re-arm the timer, traverse the three voice
lists, publish the mix into GP X-memory, then kick the processors whose
reset registers have both `GPRST` and `GPDSPRST` set.  `fuel` bounds each
list traversal; `none` is an aborted or non-terminating tick. -/
def se_frame (fuel : Nat) (s0 : APUState) : Option (APUState × List Ev) := do
  let s := { s0 with frameTimerArmed := true }
  let mixbins : Mix := fun _ _ => 0
  let (s, mixbins) ← se_frame_one_list fuel s mixbins (voice_list_regs 0)
  let (s, mixbins) ← se_frame_one_list fuel s mixbins (voice_list_regs 1)
  let (s, mixbins) ← se_frame_one_list fuel s mixbins (voice_list_regs 2)
  let gpEvs :=
    if s.gpRegs NV_PAPU_GPRST &&& NV_PAPU_GPRST_GPRST ≠ 0 ∧
        s.gpRegs NV_PAPU_GPRST &&& NV_PAPU_GPRST_GPDSPRST ≠ 0 then
      [Ev.dspStartFrame true, Ev.dspRun true 1000]
    else []
  let epEvs :=
    if s.epRegs NV_PAPU_EPRST &&& NV_PAPU_GPRST_GPRST ≠ 0 ∧
        s.epRegs NV_PAPU_EPRST &&& NV_PAPU_GPRST_GPDSPRST ≠ 0 then
      [Ev.dspStartFrame false]
    else []
  some (s, mix_publish_evs mixbins ++ gpEvs ++ epEvs)

/-! ## Physical footprint of a DMA transfer

For the round-trip and placement claims the transfers are related to the
ordered list of physical byte addresses they touch and to the page-table
bytes they consult, both computed against a fixed byte store. -/

/-- Sequential byte stores, one `(address, byte)` pair at a time. -/
def writeList (m : Nat → Nat) : List (Nat × Nat) → Nat → Nat
  | [] => m
  | p :: ps => writeList (upd m p.1 (p.2 % 256)) ps

/-- The physical byte addresses touched by the linear primitive, in
transfer order (valid while the transfer leaves the page table intact). -/
def sgAddrsAux (sge_base : Nat) : Nat → (Nat → Nat) → Nat → Nat → Nat → List Nat
  | 0, _, _, _, _ => []
  | fuel + 1, m, page_entry, offset_in_page, len =>
    if len = 0 then []
    else
      let prd := ldl m (sge_base + page_entry * 8)
      let k := min (TARGET_PAGE_SIZE - offset_in_page) len
      List.range' (prd + offset_in_page) k ++
        sgAddrsAux sge_base fuel m (page_entry + 1) 0 (len - k)

/-- The page-table bytes consulted by the linear primitive. -/
def sgTableAddrsAux (sge_base : Nat) : Nat → Nat → Nat → Nat → List Nat
  | 0, _, _, _ => []
  | fuel + 1, page_entry, offset_in_page, len =>
    if len = 0 then []
    else
      List.range' (sge_base + page_entry * 8) 4 ++
        sgTableAddrsAux sge_base fuel (page_entry + 1) 0
          (len - min (TARGET_PAGE_SIZE - offset_in_page) len)

/-- The physical byte addresses touched by a circular transfer. -/
def csgAddrsAux (sge_base base e : Nat) :
    Nat → (Nat → Nat) → Nat → Nat → List Nat
  | 0, _, _, _ => []
  | fuel + 1, m, cur, len =>
    if len = 0 then []
    else
      let k := min (e - cur) len
      sgAddrsAux sge_base k m (cur / TARGET_PAGE_SIZE)
          (cur % TARGET_PAGE_SIZE) k ++
        csgAddrsAux sge_base base e fuel m
          (if e ≤ cur + k then base else cur + k) (len - k)

/-- The page-table bytes consulted by a circular transfer. -/
def csgTableAddrsAux (sge_base base e : Nat) : Nat → Nat → Nat → List Nat
  | 0, _, _ => []
  | fuel + 1, cur, len =>
    if len = 0 then []
    else
      let k := min (e - cur) len
      sgTableAddrsAux sge_base k (cur / TARGET_PAGE_SIZE)
          (cur % TARGET_PAGE_SIZE) k ++
        csgTableAddrsAux sge_base base e fuel
          (if e ≤ cur + k then base else cur + k) (len - k)

/-! ## Concrete states and the arbiter invariant -/

/-- The arbiter rule of the specification: whenever the condition of
`update_irq` holds, `ISTS.GINTSTS` is set and the PCI line is asserted,
otherwise both are clear. -/
def arbiter_ok (s : APUState) : Prop :=
  if irq_cond s then
    (s.regs NV_PAPU_ISTS).testBit 0 = true ∧ s.irq = true
  else
    (s.regs NV_PAPU_ISTS).testBit 0 = false ∧ s.irq = false

instance (s : APUState) : Decidable (arbiter_ok s) := by
  unfold arbiter_ok; infer_instance

/-- A concrete device state: `FETINTSTS` pending in `ISTS`, everything else
zero, line deasserted. -/
def c1State : APUState :=
  ⟨fun a => if a = NV_PAPU_ISTS then 0x10 else 0,
    fun _ => 0, fun _ => 0, fun _ => 0, false, false⟩

/-- A concrete state with the idle-voice trap enabled. -/
def c5State : APUState :=
  ⟨fun a => if a = NV_PAPU_FETFORCE1 then 0x8000 else 0,
    fun _ => 0, fun _ => 0, fun _ => 0, false, false⟩

/-- A concrete state for C3: `FEAV` selects the 3D list top, the 3D list
is empty (`TVL3D = 0xFFFF`), voice records live at 0x10000. -/
def c3State : APUState :=
  ⟨fun r =>
      if r = NV_PAPU_FEAV then 0x20000
      else if r = NV_PAPU_TVL3D then 0xFFFF
      else if r = NV_PAPU_VPVADDR then 0x10000
      else 0,
    fun _ => 0, fun _ => 0, fun _ => 0, false, false⟩

/-- A concrete state for C4: inherit selector with antecedent handle 5,
voice records at 0x1000, all records zeroed. -/
def c4State : APUState :=
  ⟨fun r =>
      if r = NV_PAPU_FEAV then 5
      else if r = NV_PAPU_VPVADDR then 0x1000
      else 0,
    fun _ => 0, fun _ => 0, fun _ => 0, false, false⟩

/-- A guest memory whose page table at 0x8000 maps logical page 0 to
physical address 0x100. -/
def c8Mem : Nat → Nat :=
  fun x => if x = 0x8001 then 1 else 0

/-- Witness for C9 on a concrete tick: all lists empty, GP enabled, EP
disabled. -/
def c9State : APUState :=
  ⟨fun r =>
      if r = NV_PAPU_TVL2D ∨ r = NV_PAPU_TVL3D ∨ r = NV_PAPU_TVLMP then 0xFFFF
      else 0,
    fun _ => 3, fun _ => 0, fun _ => 0, false, false⟩

/-! ## Basic lemmas about the store primitives -/

theorem upd_self (f : Nat → Nat) (a v : Nat) : upd f a v a = v := by
  simp [upd]

theorem upd_ne (f : Nat → Nat) (a v x : Nat) (h : x ≠ a) : upd f a v x = f x := by
  simp [upd, h]

theorem stl_out (m : Nat → Nat) (a v x : Nat) (h : x < a ∨ a + 4 ≤ x) :
    stl m a v x = m x := by
  unfold stl
  rw [if_neg (by omega), if_neg (by omega), if_neg (by omega), if_neg (by omega)]

theorem stl_at0 (m : Nat → Nat) (a v : Nat) : stl m a v a = v % 256 := by
  unfold stl
  rw [if_pos rfl]

theorem stl_at1 (m : Nat → Nat) (a v : Nat) :
    stl m a v (a + 1) = v / 0x100 % 256 := by
  unfold stl
  rw [if_neg (by omega), if_pos rfl]

theorem stl_at2 (m : Nat → Nat) (a v : Nat) :
    stl m a v (a + 2) = v / 0x10000 % 256 := by
  unfold stl
  rw [if_neg (by omega), if_neg (by omega), if_pos rfl]

theorem stl_at3 (m : Nat → Nat) (a v : Nat) :
    stl m a v (a + 3) = v / 0x1000000 % 256 := by
  unfold stl
  rw [if_neg (by omega), if_neg (by omega), if_neg (by omega), if_pos rfl]

theorem ldl_stl_same (m : Nat → Nat) (a v : Nat) :
    ldl (stl m a v) a = v % 0x100000000 := by
  unfold ldl
  rw [stl_at0, stl_at1, stl_at2, stl_at3]
  omega

theorem ldl_stl_out (m : Nat → Nat) (a v b : Nat)
    (h : b + 4 ≤ a ∨ a + 4 ≤ b) : ldl (stl m a v) b = ldl m b := by
  unfold ldl
  rw [stl_out m a v b (by omega), stl_out m a v (b + 1) (by omega),
    stl_out m a v (b + 2) (by omega), stl_out m a v (b + 3) (by omega)]

theorem ldl_lt (m : Nat → Nat) (a : Nat) : ldl m a < 0x100000000 := by
  unfold ldl
  omega

/-! ## Bit-level helper lemmas -/

theorem testBit_ffffffff (i : Nat) :
    (0xFFFFFFFF : Nat).testBit i = decide (i < 32) := by
  rw [show (0xFFFFFFFF : Nat) = 2 ^ 32 - 1 by norm_num,
    Nat.testBit_two_pow_sub_one]

theorem testBit_one_iff (i : Nat) : (1 : Nat).testBit i = decide (0 = i) := by
  rw [show (1 : Nat) = 2 ^ 0 by norm_num, Nat.testBit_two_pow]

theorem lor_one_land_mask (x : Nat) :
    (x ||| 1) &&& (0xFFFFFFFF ^^^ 1) = x &&& (0xFFFFFFFF ^^^ 1) := by
  apply Nat.eq_of_testBit_eq
  intro i
  simp only [Nat.testBit_land, Nat.testBit_lor, Nat.testBit_xor,
    testBit_ffffffff, testBit_one_iff]
  by_cases h0 : 0 = i
  · subst h0; simp
  · by_cases h32 : i < 32 <;> simp [h0, h32]

theorem land_mask_land_mask (x : Nat) :
    (x &&& (0xFFFFFFFF ^^^ 1)) &&& (0xFFFFFFFF ^^^ 1) =
      x &&& (0xFFFFFFFF ^^^ 1) := by
  rw [Nat.land_assoc, show ((0xFFFFFFFF ^^^ 1 : Nat) &&& (0xFFFFFFFF ^^^ 1)) =
    0xFFFFFFFF ^^^ 1 from by decide]

/-! ## The interrupt arbiter invariant (C1, C5, C7) -/

theorem regs_update_irq_other (s : APUState) (a : Nat) (h : a ≠ NV_PAPU_ISTS) :
    (update_irq s).regs a = s.regs a := by
  unfold update_irq
  split <;> exact upd_ne _ _ _ _ h

theorem irq_cond_update_irq (s : APUState) :
    irq_cond (update_irq s) ↔ irq_cond s := by
  have hien : (update_irq s).regs NV_PAPU_IEN = s.regs NV_PAPU_IEN :=
    regs_update_irq_other s NV_PAPU_IEN (by decide)
  unfold irq_cond
  rw [hien]
  unfold update_irq
  split <;>
    simp only [upd_self, NV_PAPU_ISTS_GINTSTS, Nat.shiftLeft_zero,
      lor_one_land_mask, land_mask_land_mask]

theorem arbiter_ok_update_irq (s : APUState) : arbiter_ok (update_irq s) := by
  unfold arbiter_ok
  by_cases h : irq_cond s
  · rw [if_pos ((irq_cond_update_irq s).mpr h)]
    unfold update_irq
    rw [if_pos h]
    refine ⟨?_, rfl⟩
    simp [upd_self, NV_PAPU_ISTS_GINTSTS, Nat.testBit_lor, testBit_one_iff]
  · rw [if_neg (fun hc => h ((irq_cond_update_irq s).mp hc))]
    unfold update_irq
    rw [if_neg h]
    refine ⟨?_, rfl⟩
    simp [upd_self, NV_PAPU_ISTS_GINTSTS, Nat.testBit_land, Nat.testBit_xor,
      testBit_ffffffff, testBit_one_iff]

/-- C1 (amended): the arbiter rule holds after every guest MMIO write to
`ISTS`; a plain write to `IEN` (offset 0x1004), however, only stores the
value — it leaves `ISTS` and the interrupt line untouched and does not
re-evaluate the rule. -/
theorem claim_C1 :
    (∀ (s : APUState) (v : Nat), arbiter_ok (mcpx_apu_write s NV_PAPU_ISTS v)) ∧
    (∀ (s : APUState) (v : Nat),
      (mcpx_apu_write s NV_PAPU_IEN v).regs NV_PAPU_ISTS =
          s.regs NV_PAPU_ISTS ∧
        (mcpx_apu_write s NV_PAPU_IEN v).irq = s.irq ∧
        (mcpx_apu_write s NV_PAPU_IEN v).regs NV_PAPU_IEN =
          v % 0x100000000) := by
  constructor
  · intro s v
    unfold mcpx_apu_write
    rw [if_pos rfl]
    exact arbiter_ok_update_irq _
  · intro s v
    unfold mcpx_apu_write
    rw [if_neg (by decide), if_neg (by decide), if_neg (by decide),
      if_pos (by decide)]
    refine ⟨?_, rfl, ?_⟩
    · exact upd_ne s.regs NV_PAPU_IEN (v % 0x100000000) NV_PAPU_ISTS (by decide)
    · exact upd_self s.regs NV_PAPU_IEN (v % 0x100000000)

/-- C1 as frozen is false: after the guest writes `0x11` to `IEN` (offset
0x1004) in `c1State`, the arbiter condition holds but `ISTS.GINTSTS` is
still clear and the line still deasserted. -/
theorem claim_C1_counterexample :
    ¬ arbiter_ok (mcpx_apu_write c1State NV_PAPU_IEN 0x11) := by
  decide

/-- C7: an `ISTS` write is write-one-to-clear: the value stored before
interrupt re-evaluation is `old &&& ~written`, i.e. a stored bit survives
exactly when the corresponding written bit is 0 and no clear bit becomes
set; after re-evaluation every bit other than `GINTSTS` still agrees with
that value. -/
theorem claim_C7 (s : APUState) (w i : Nat) (hi : i < 32) :
    ((s.regs NV_PAPU_ISTS &&& (0xFFFFFFFF ^^^ (w % 0x100000000))).testBit i =
      ((s.regs NV_PAPU_ISTS).testBit i && !(w.testBit i))) ∧
    (i ≠ 0 →
      ((mcpx_apu_write s NV_PAPU_ISTS w).regs NV_PAPU_ISTS).testBit i =
        ((s.regs NV_PAPU_ISTS).testBit i && !(w.testBit i))) := by
  have hmid : ∀ x : Nat,
      (x &&& (0xFFFFFFFF ^^^ (w % 0x100000000))).testBit i =
        (x.testBit i && !(w.testBit i)) := by
    intro x
    simp only [Nat.testBit_land, Nat.testBit_xor, testBit_ffffffff,
      show (0x100000000 : Nat) = 2 ^ 32 by norm_num, Nat.testBit_mod_two_pow]
    simp [hi]
  refine ⟨hmid _, fun hne => ?_⟩
  unfold mcpx_apu_write
  rw [if_pos rfl]
  unfold update_irq
  split <;>
    simp only [upd_self, Nat.testBit_lor, Nat.testBit_land,
      NV_PAPU_ISTS_GINTSTS, Nat.shiftLeft_zero, testBit_one_iff,
      Nat.testBit_xor, testBit_ffffffff, hmid]
  · simp [hi, Ne.symm hne]
  · simp [hi, Ne.symm hne]

/-! ## C5: the idle-voice trap -/

theorem fectl_trapped_memmode (x : Nat) :
    ((((x &&& (0xFFFFFFFF ^^^ 0xE0)) ||| 0xE0) &&& (0xFFFFFFFF ^^^ 0xF00)) |||
        0xF00) &&& 0xE0 = 0xE0 := by
  rw [Nat.and_distrib_right, Nat.land_assoc,
    show ((0xFFFFFFFF ^^^ 0xF00 : Nat) &&& 0xE0) = 0xE0 from by decide,
    Nat.and_distrib_right, Nat.land_assoc,
    show ((0xFFFFFFFF ^^^ 0xE0 : Nat) &&& 0xE0) = 0 from by decide,
    Nat.and_zero,
    show ((0xF00 : Nat) &&& 0xE0) = 0 from by decide,
    show ((0xE0 : Nat) &&& 0xE0) = 0xE0 from by decide]
  decide

theorem fectl_trapped_reason (x : Nat) :
    ((((x &&& (0xFFFFFFFF ^^^ 0xE0)) ||| 0xE0) &&& (0xFFFFFFFF ^^^ 0xF00)) |||
        0xF00) &&& 0xF00 = 0xF00 := by
  rw [Nat.and_distrib_right, Nat.land_assoc,
    show ((0xFFFFFFFF ^^^ 0xF00 : Nat) &&& 0xF00) = 0 from by decide,
    Nat.and_zero,
    show ((0xF00 : Nat) &&& 0xF00) = 0xF00 from by decide]
  decide

/-- C5: an `SE2FE_IDLE_VOICE` front-end method traps when bit 15 of
`FETFORCE1` is set — `FECTL.FEMETHMODE` becomes `TRAPPED`,
`FECTL.FETRAPREASON` becomes `REQUESTED`, `ISTS.FETINTSTS` is raised and
the arbiter rule is re-established — and aborts (the `assert(false)`
branch) when the enable bit is clear. -/
theorem claim_C5 (s : APUState) (arg : Nat) :
    (s.regs NV_PAPU_FETFORCE1 &&& NV_PAPU_FETFORCE1_SE2FE_IDLE_VOICE ≠ 0 →
      ∃ s', fe_method s SE2FE_IDLE_VOICE arg = some s' ∧
        s'.regs NV_PAPU_FECTL &&& NV_PAPU_FECTL_FEMETHMODE =
          NV_PAPU_FECTL_FEMETHMODE_TRAPPED ∧
        s'.regs NV_PAPU_FECTL &&& NV_PAPU_FECTL_FETRAPREASON =
          NV_PAPU_FECTL_FETRAPREASON_REQUESTED ∧
        (s'.regs NV_PAPU_ISTS).testBit 4 = true ∧
        arbiter_ok s') ∧
    (s.regs NV_PAPU_FETFORCE1 &&& NV_PAPU_FETFORCE1_SE2FE_IDLE_VOICE = 0 →
      fe_method s SE2FE_IDLE_VOICE arg = none) := by
  constructor
  · intro h
    unfold fe_method
    rw [if_neg (by decide), if_neg (by decide), if_neg (by decide),
      if_neg (by decide), if_neg (by decide), if_pos rfl]
    split
    · refine ⟨_, rfl, ?_, ?_, ?_, arbiter_ok_update_irq _⟩
      · rw [regs_update_irq_other _ NV_PAPU_FECTL (by decide)]
        simp only [upd_self,
          upd_ne _ _ _ _ (show NV_PAPU_FECTL ≠ NV_PAPU_ISTS from by decide),
          upd_ne _ _ _ _ (show NV_PAPU_FECTL ≠ NV_PAPU_FEDECPARAM from by decide),
          upd_ne _ _ _ _ (show NV_PAPU_FECTL ≠ NV_PAPU_FEDECMETH from by decide)]
        simpa only [NV_PAPU_FECTL_FEMETHMODE, NV_PAPU_FECTL_FEMETHMODE_TRAPPED,
          NV_PAPU_FECTL_FETRAPREASON, NV_PAPU_FECTL_FETRAPREASON_REQUESTED]
          using fectl_trapped_memmode (s.regs NV_PAPU_FECTL)
      · rw [regs_update_irq_other _ NV_PAPU_FECTL (by decide)]
        simp only [upd_self,
          upd_ne _ _ _ _ (show NV_PAPU_FECTL ≠ NV_PAPU_ISTS from by decide),
          upd_ne _ _ _ _ (show NV_PAPU_FECTL ≠ NV_PAPU_FEDECPARAM from by decide),
          upd_ne _ _ _ _ (show NV_PAPU_FECTL ≠ NV_PAPU_FEDECMETH from by decide)]
        simpa only [NV_PAPU_FECTL_FEMETHMODE, NV_PAPU_FECTL_FEMETHMODE_TRAPPED,
          NV_PAPU_FECTL_FETRAPREASON, NV_PAPU_FECTL_FETRAPREASON_REQUESTED]
          using fectl_trapped_reason (s.regs NV_PAPU_FECTL)
      · unfold update_irq
        split <;>
          simp [upd_self,
            upd_ne _ _ _ _ (show NV_PAPU_ISTS ≠ NV_PAPU_FECTL from by decide),
            upd_ne _ _ _ _ (show NV_PAPU_ISTS ≠ NV_PAPU_FEDECPARAM from by decide),
            upd_ne _ _ _ _ (show NV_PAPU_ISTS ≠ NV_PAPU_FEDECMETH from by decide),
            Nat.testBit_lor, Nat.testBit_land, Nat.testBit_xor,
            testBit_ffffffff, testBit_one_iff, Nat.testBit_shiftLeft,
            NV_PAPU_ISTS_FETINTSTS, NV_PAPU_ISTS_GINTSTS,
            show Nat.testBit 16 4 = true from by decide,
            show Nat.testBit 4294967294 4 = true from by decide]
    · next hc => exact absurd h hc
  · intro h
    unfold fe_method
    rw [if_neg (by decide), if_neg (by decide), if_neg (by decide),
      if_neg (by decide), if_neg (by decide), if_pos rfl]
    split
    · next hc => exact absurd h hc
    · rfl

/-- Witness for C5: the trap fires in `c5State`. -/
theorem claim_C5_witness :
    c5State.regs NV_PAPU_FETFORCE1 &&& NV_PAPU_FETFORCE1_SE2FE_IDLE_VOICE ≠ 0 ∧
    (∃ s', fe_method c5State SE2FE_IDLE_VOICE 7 = some s' ∧
      s'.regs NV_PAPU_FECTL &&& NV_PAPU_FECTL_FEMETHMODE =
        NV_PAPU_FECTL_FEMETHMODE_TRAPPED ∧
      s'.regs NV_PAPU_FECTL &&& NV_PAPU_FECTL_FETRAPREASON =
        NV_PAPU_FECTL_FETRAPREASON_REQUESTED ∧
      (s'.regs NV_PAPU_ISTS).testBit 4 = true ∧
      arbiter_ok s') :=
  ⟨by decide, (claim_C5 c5State 7).1 (by decide)⟩

/-! ## C3 and C4: voice-list insertion by VOICE_ON -/

theorem land_mod_two_pow_32 (v k : Nat) (hk : k < 0x100000000) :
    (v % 0x100000000) &&& k = v &&& k := by
  apply Nat.eq_of_testBit_eq
  intro i
  simp only [Nat.testBit_land, show (0x100000000 : Nat) = 2 ^ 32 by norm_num,
    Nat.testBit_mod_two_pow]
  by_cases hi : i < 32
  · simp [hi]
  · have hk32 : k < 2 ^ 32 := by omega
    have : k.testBit i = false :=
      Nat.testBit_lt_two_pow
        (lt_of_lt_of_le hk32 (Nat.pow_le_pow_right (by norm_num) (by omega)))
    simp [hi, this]

theorem land_ffff (x : Nat) : x &&& 0xFFFF = x % 0x10000 := by
  apply Nat.eq_of_testBit_eq
  intro i
  rw [show (65535 : Nat) = 2 ^ 16 - 1 by norm_num,
    show (65536 : Nat) = 2 ^ 16 by norm_num]
  simp only [Nat.testBit_land, Nat.testBit_two_pow_sub_one,
    Nat.testBit_mod_two_pow]
  by_cases hi : i < 16 <;> simp [hi]

theorem get_mask_lst_lt (x : Nat) : GET_MASK x NV_PAPU_FEAV_LST < 4 := by
  unfold GET_MASK NV_PAPU_FEAV_LST
  rw [show ctz32 0x30000 = 16 from by decide, Nat.shiftRight_eq_div_pow]
  have hle : x &&& 0x30000 ≤ 0x30000 := Nat.and_le_right
  omega

/-- Reading back the next-voice-handle field just written by
`voice_set_mask` yields the written value masked to 16 bits. -/
theorem set_get_link (x y : Nat) :
    GET_MASK (((x &&& (0xFFFFFFFF ^^^ 0xFFFF)) |||
        ((y <<< ctz32 0xFFFF) &&& 0xFFFF)) % 0x100000000) 0xFFFF =
      y &&& 0xFFFF := by
  rw [show ctz32 0xFFFF = 0 from by decide, Nat.shiftLeft_zero]
  unfold GET_MASK
  rw [show ctz32 0xFFFF = 0 from by decide, Nat.shiftRight_zero,
    land_mod_two_pow_32 _ _ (by norm_num), Nat.and_distrib_right,
    Nat.land_assoc, show ((0xFFFFFFFF ^^^ 0xFFFF : Nat) &&& 0xFFFF) = 0 from by
      decide, Nat.and_zero, Nat.land_assoc,
    show ((0xFFFF : Nat) &&& 0xFFFF) = 0xFFFF from by decide, Nat.zero_or]

/-- Reading back the `ACTIVE_VOICE` bit just set by `voice_set_mask`
yields 1. -/
theorem set_get_active (x : Nat) :
    GET_MASK (((x &&& (0xFFFFFFFF ^^^ 0x200000)) |||
        ((1 <<< ctz32 0x200000) &&& 0x200000)) % 0x100000000)
      0x200000 = 1 := by
  unfold GET_MASK
  rw [show ctz32 0x200000 = 21 from by decide,
    show ((1 : Nat) <<< 21 &&& 0x200000) = 0x200000 from by decide,
    land_mod_two_pow_32 _ _ (by norm_num), Nat.and_distrib_right,
    Nat.land_assoc,
    show ((0xFFFFFFFF ^^^ 0x200000 : Nat) &&& 0x200000) = 0 from by decide,
    Nat.and_zero,
    show ((0x200000 : Nat) &&& 0x200000) = 0x200000 from by decide,
    Nat.zero_or]
  decide

/-- Unfolding equation for a successful `voice_set_mask`. -/
theorem voice_set_mask_eq (s : APUState) (vh off mask val : Nat)
    (hvh : vh < 0xFFFF) :
    voice_set_mask s vh off mask val =
      some { s with
        mem := stl s.mem (s.regs NV_PAPU_VPVADDR + vh * NV_PAVS_SIZE + off)
          ((ldl s.mem (s.regs NV_PAPU_VPVADDR + vh * NV_PAVS_SIZE + off) &&&
              (0xFFFFFFFF ^^^ mask)) ||| ((val <<< ctz32 mask) &&& mask)) } := by
  unfold voice_set_mask
  rw [if_pos hvh]

/-- Unfolding equation for a successful `voice_get_mask`. -/
theorem voice_get_mask_eq (s : APUState) (vh off mask : Nat)
    (hvh : vh < 0xFFFF) :
    voice_get_mask s vh off mask =
      some (GET_MASK
        (ldl s.mem (s.regs NV_PAPU_VPVADDR + vh * NV_PAVS_SIZE + off)) mask) := by
  unfold voice_get_mask
  rw [if_pos hvh]

/-- C3: `VOICE_ON(h)` with a non-inherit list selector in `FEAV` links the
new voice to the previous list top, makes it the new `TOP`, and sets its
`Active` bit (stated with the data-model invariant that `TOP` holds a
16-bit handle). -/
theorem claim_C3 (s : APUState) (h l : Nat) (hh : h < 0xFFFF)
    (hleq : GET_MASK (s.regs NV_PAPU_FEAV) NV_PAPU_FEAV_LST = l) (hl : l ≠ 0)
    (htop : s.regs (voice_list_regs (l - 1)).top < 0x10000) :
    ∃ s', fe_method s NV1BA0_PIO_VOICE_ON h = some s' ∧
      voice_get_mask s' h NV_PAVS_VOICE_TAR_PITCH_LINK
          NV_PAVS_VOICE_TAR_PITCH_LINK_NEXT_VOICE_HANDLE =
        some (s.regs (voice_list_regs (l - 1)).top) ∧
      s'.regs (voice_list_regs (l - 1)).top = h ∧
      voice_get_mask s' h NV_PAVS_VOICE_PAR_STATE
        NV_PAVS_VOICE_PAR_STATE_ACTIVE_VOICE = some 1 := by
  have hl4 : l < 4 := hleq ▸ get_mask_lst_lt (s.regs NV_PAPU_FEAV)
  have hsel : h &&& NV1BA0_PIO_VOICE_ON_HANDLE = h := by
    show h &&& 0xFFFF = h
    rw [land_ffff, Nat.mod_eq_of_lt (by omega)]
  unfold fe_method
  rw [if_neg (by decide), if_pos rfl]
  simp only [upd_ne _ _ _ _ (show NV_PAPU_FEAV ≠ NV_PAPU_FEDECPARAM from by decide),
    upd_ne _ _ _ _ (show NV_PAPU_FEAV ≠ NV_PAPU_FEDECMETH from by decide),
    hleq, hsel]
  have hl3 : l = 1 ∨ l = 2 ∨ l = 3 := by omega
  rcases hl3 with rfl | rfl | rfl <;>
  · rw [if_pos (by decide)]
    simp only [voice_list_regs] at htop
    simp only [voice_list_regs, voice_set_mask_eq _ _ _ _ _ hh,
      Option.some_bind]
    refine ⟨_, rfl, ?_, ?_, ?_⟩
    · rw [voice_get_mask_eq _ _ _ _ hh]
      simp only [upd_self,
        upd_ne _ _ _ _ (show NV_PAPU_VPVADDR ≠ NV_PAPU_TVL2D from by decide),
        upd_ne _ _ _ _ (show NV_PAPU_VPVADDR ≠ NV_PAPU_TVL3D from by decide),
        upd_ne _ _ _ _ (show NV_PAPU_VPVADDR ≠ NV_PAPU_TVLMP from by decide),
        upd_ne _ _ _ _ (show NV_PAPU_VPVADDR ≠ NV_PAPU_FEDECPARAM from by decide),
        upd_ne _ _ _ _ (show NV_PAPU_VPVADDR ≠ NV_PAPU_FEDECMETH from by decide),
        upd_ne _ _ _ _ (show NV_PAPU_TVL2D ≠ NV_PAPU_FEDECPARAM from by decide),
        upd_ne _ _ _ _ (show NV_PAPU_TVL2D ≠ NV_PAPU_FEDECMETH from by decide),
        upd_ne _ _ _ _ (show NV_PAPU_TVL3D ≠ NV_PAPU_FEDECPARAM from by decide),
        upd_ne _ _ _ _ (show NV_PAPU_TVL3D ≠ NV_PAPU_FEDECMETH from by decide),
        upd_ne _ _ _ _ (show NV_PAPU_TVLMP ≠ NV_PAPU_FEDECPARAM from by decide),
        upd_ne _ _ _ _ (show NV_PAPU_TVLMP ≠ NV_PAPU_FEDECMETH from by decide)]
      rw [show NV_PAVS_VOICE_PAR_STATE = 0x54 from rfl,
        show NV_PAVS_VOICE_TAR_PITCH_LINK = 0x7C from rfl,
        ldl_stl_out _ _ _ _ (by omega), ldl_stl_same,
        show NV_PAVS_VOICE_TAR_PITCH_LINK_NEXT_VOICE_HANDLE = 0xFFFF from rfl,
        set_get_link, land_ffff, Nat.mod_eq_of_lt htop]
    · simp only [upd_self]
    · rw [voice_get_mask_eq _ _ _ _ hh]
      simp only [upd_self,
        upd_ne _ _ _ _ (show NV_PAPU_VPVADDR ≠ NV_PAPU_TVL2D from by decide),
        upd_ne _ _ _ _ (show NV_PAPU_VPVADDR ≠ NV_PAPU_TVL3D from by decide),
        upd_ne _ _ _ _ (show NV_PAPU_VPVADDR ≠ NV_PAPU_TVLMP from by decide),
        upd_ne _ _ _ _ (show NV_PAPU_VPVADDR ≠ NV_PAPU_FEDECPARAM from by decide),
        upd_ne _ _ _ _ (show NV_PAPU_VPVADDR ≠ NV_PAPU_FEDECMETH from by decide)]
      rw [show NV_PAVS_VOICE_PAR_STATE = 0x54 from rfl, ldl_stl_same,
        show NV_PAVS_VOICE_PAR_STATE_ACTIVE_VOICE = 0x200000 from by decide,
        set_get_active]

/-- Witness for C3: inserting handle 5 into the initially empty 3D list
makes `TOP = 5` with `next_link(5) = 0xFFFF` (the previous top). -/
theorem claim_C3_witness :
    5 < 0xFFFF ∧
    GET_MASK (c3State.regs NV_PAPU_FEAV) NV_PAPU_FEAV_LST = 2 ∧
    c3State.regs (voice_list_regs (2 - 1)).top < 0x10000 ∧
    (∃ s', fe_method c3State NV1BA0_PIO_VOICE_ON 5 = some s' ∧
      voice_get_mask s' 5 NV_PAVS_VOICE_TAR_PITCH_LINK
          NV_PAVS_VOICE_TAR_PITCH_LINK_NEXT_VOICE_HANDLE =
        some (c3State.regs (voice_list_regs (2 - 1)).top) ∧
      s'.regs (voice_list_regs (2 - 1)).top = 5 ∧
      voice_get_mask s' 5 NV_PAVS_VOICE_PAR_STATE
        NV_PAVS_VOICE_PAR_STATE_ACTIVE_VOICE = some 1) :=
  ⟨by decide, by decide, by decide,
    claim_C3 c3State 5 2 (by decide) (by decide) (by decide) (by decide)⟩

theorem get_mask_ffff (z : Nat) : GET_MASK z 0xFFFF = z &&& 0xFFFF := by
  unfold GET_MASK
  rw [show ctz32 0xFFFF = 0 from by decide, Nat.shiftRight_zero]

theorem land_ffff_idem (y : Nat) :
    (y &&& 0xFFFF) &&& 0xFFFF = y &&& 0xFFFF := by
  rw [Nat.land_assoc, show ((0xFFFF : Nat) &&& 0xFFFF) = 0xFFFF from by decide]

theorem get_mask_value_le (x : Nat) : GET_MASK x NV_PAPU_FEAV_VALUE ≤ 0xFFFF := by
  unfold NV_PAPU_FEAV_VALUE
  rw [get_mask_ffff]
  exact Nat.and_le_right

/-- C4 (amended): `VOICE_ON(h)` with the inherit selector and antecedent
`a ∉ {0xFFFF, h}` links `a → h`, gives `h` the former `next_link(a)`, sets
`Active(h)` and leaves every list `TOP` register unchanged.  (The claim as
frozen omits `a ≠ h`.) -/
theorem claim_C4 (s : APUState) (h a : Nat) (hh : h < 0xFFFF)
    (hinh : GET_MASK (s.regs NV_PAPU_FEAV) NV_PAPU_FEAV_LST = 0)
    (haeq : GET_MASK (s.regs NV_PAPU_FEAV) NV_PAPU_FEAV_VALUE = a)
    (ha : a ≠ 0xFFFF) (hah : a ≠ h) :
    ∃ s', fe_method s NV1BA0_PIO_VOICE_ON h = some s' ∧
      voice_get_mask s' a NV_PAVS_VOICE_TAR_PITCH_LINK
          NV_PAVS_VOICE_TAR_PITCH_LINK_NEXT_VOICE_HANDLE = some h ∧
      voice_get_mask s' h NV_PAVS_VOICE_TAR_PITCH_LINK
          NV_PAVS_VOICE_TAR_PITCH_LINK_NEXT_VOICE_HANDLE =
        voice_get_mask s a NV_PAVS_VOICE_TAR_PITCH_LINK
          NV_PAVS_VOICE_TAR_PITCH_LINK_NEXT_VOICE_HANDLE ∧
      voice_get_mask s' h NV_PAVS_VOICE_PAR_STATE
        NV_PAVS_VOICE_PAR_STATE_ACTIVE_VOICE = some 1 ∧
      (∀ i : Nat,
        s'.regs (voice_list_regs i).top = s.regs (voice_list_regs i).top) := by
  have ha' : a < 0xFFFF := by
    have := haeq ▸ get_mask_value_le (s.regs NV_PAPU_FEAV)
    omega
  have hsel : h &&& NV1BA0_PIO_VOICE_ON_HANDLE = h := by
    show h &&& 0xFFFF = h
    rw [land_ffff, Nat.mod_eq_of_lt (by omega)]
  unfold fe_method
  rw [if_neg (by decide), if_pos rfl]
  simp only [upd_ne _ _ _ _ (show NV_PAPU_FEAV ≠ NV_PAPU_FEDECPARAM from by decide),
    upd_ne _ _ _ _ (show NV_PAPU_FEAV ≠ NV_PAPU_FEDECMETH from by decide),
    hinh, hsel, haeq]
  rw [if_neg (by decide), if_neg ha]
  simp only [voice_get_mask_eq _ _ _ _ ha', voice_set_mask_eq _ _ _ _ _ hh,
    voice_set_mask_eq _ _ _ _ _ ha', Option.some_bind,
    upd_ne _ _ _ _ (show NV_PAPU_VPVADDR ≠ NV_PAPU_FEDECPARAM from by decide),
    upd_ne _ _ _ _ (show NV_PAPU_VPVADDR ≠ NV_PAPU_FEDECMETH from by decide)]
  refine ⟨_, rfl, ?_, ?_, ?_, ?_⟩
  · simp only [upd_ne _ _ _ _ (show NV_PAPU_VPVADDR ≠ NV_PAPU_FEDECPARAM from by decide),
      upd_ne _ _ _ _ (show NV_PAPU_VPVADDR ≠ NV_PAPU_FEDECMETH from by decide)]
    rw [show NV_PAVS_VOICE_PAR_STATE = 0x54 from rfl,
      show NV_PAVS_VOICE_TAR_PITCH_LINK = 0x7C from rfl,
      show NV_PAVS_SIZE = 0x80 from rfl,
      ldl_stl_out _ _ _ _ (by rcases Nat.lt_or_ge a h with hc | hc <;> omega),
      ldl_stl_same,
      show NV_PAVS_VOICE_TAR_PITCH_LINK_NEXT_VOICE_HANDLE = 0xFFFF from rfl,
      set_get_link, land_ffff, Nat.mod_eq_of_lt (show h < 65536 by omega)]
  · rw [voice_get_mask_eq _ _ _ _ hh]
    simp only [upd_ne _ _ _ _ (show NV_PAPU_VPVADDR ≠ NV_PAPU_FEDECPARAM from by decide),
      upd_ne _ _ _ _ (show NV_PAPU_VPVADDR ≠ NV_PAPU_FEDECMETH from by decide)]
    rw [show NV_PAVS_VOICE_PAR_STATE = 0x54 from rfl,
      show NV_PAVS_VOICE_TAR_PITCH_LINK = 0x7C from rfl,
      show NV_PAVS_SIZE = 0x80 from rfl,
      ldl_stl_out _ _ _ _ (by omega),
      ldl_stl_out _ _ _ _ (by rcases Nat.lt_or_ge a h with hc | hc <;> omega),
      ldl_stl_same,
      show NV_PAVS_VOICE_TAR_PITCH_LINK_NEXT_VOICE_HANDLE = 0xFFFF from rfl,
      set_get_link, get_mask_ffff, land_ffff_idem]
  · rw [voice_get_mask_eq _ _ _ _ hh]
    simp only [upd_ne _ _ _ _ (show NV_PAPU_VPVADDR ≠ NV_PAPU_FEDECPARAM from by decide),
      upd_ne _ _ _ _ (show NV_PAPU_VPVADDR ≠ NV_PAPU_FEDECMETH from by decide)]
    rw [show NV_PAVS_VOICE_PAR_STATE = 0x54 from rfl,
      show NV_PAVS_SIZE = 0x80 from rfl, ldl_stl_same,
      show NV_PAVS_VOICE_PAR_STATE_ACTIVE_VOICE = 0x200000 from by decide,
      set_get_active]
  · intro i
    match i with
    | 0 =>
      simp only [voice_list_regs]
      rw [upd_ne _ _ _ _ (by decide), upd_ne _ _ _ _ (by decide)]
    | 1 =>
      simp only [voice_list_regs]
      rw [upd_ne _ _ _ _ (by decide), upd_ne _ _ _ _ (by decide)]
    | Nat.succ (Nat.succ j) =>
      simp only [voice_list_regs]
      rw [upd_ne _ _ _ _ (by decide), upd_ne _ _ _ _ (by decide)]

/-- C4 as frozen is false when the antecedent equals the inserted handle:
with `FEAV = (inherit, 5)` and `next_link(5) = 0` beforehand,
`VOICE_ON(5)` leaves `next_link(5) = 5`, not the pre-insert value 0. -/
theorem claim_C4_counterexample :
    GET_MASK (c4State.regs NV_PAPU_FEAV) NV_PAPU_FEAV_LST = 0 ∧
    GET_MASK (c4State.regs NV_PAPU_FEAV) NV_PAPU_FEAV_VALUE = 5 ∧
    voice_get_mask c4State 5 NV_PAVS_VOICE_TAR_PITCH_LINK
      NV_PAVS_VOICE_TAR_PITCH_LINK_NEXT_VOICE_HANDLE = some 0 ∧
    (fe_method c4State NV1BA0_PIO_VOICE_ON 5).bind
        (fun s' => voice_get_mask s' 5 NV_PAVS_VOICE_TAR_PITCH_LINK
          NV_PAVS_VOICE_TAR_PITCH_LINK_NEXT_VOICE_HANDLE) =
      some 5 := by
  decide

/-- Witness for C4 with antecedent 5 and new handle 7. -/
theorem claim_C4_witness :
    7 < 0xFFFF ∧
    GET_MASK (c4State.regs NV_PAPU_FEAV) NV_PAPU_FEAV_LST = 0 ∧
    GET_MASK (c4State.regs NV_PAPU_FEAV) NV_PAPU_FEAV_VALUE = 5 ∧
    (∃ s', fe_method c4State NV1BA0_PIO_VOICE_ON 7 = some s' ∧
      voice_get_mask s' 5 NV_PAVS_VOICE_TAR_PITCH_LINK
          NV_PAVS_VOICE_TAR_PITCH_LINK_NEXT_VOICE_HANDLE = some 7 ∧
      voice_get_mask s' 7 NV_PAVS_VOICE_TAR_PITCH_LINK
          NV_PAVS_VOICE_TAR_PITCH_LINK_NEXT_VOICE_HANDLE =
        voice_get_mask c4State 5 NV_PAVS_VOICE_TAR_PITCH_LINK
          NV_PAVS_VOICE_TAR_PITCH_LINK_NEXT_VOICE_HANDLE ∧
      voice_get_mask s' 7 NV_PAVS_VOICE_PAR_STATE
        NV_PAVS_VOICE_PAR_STATE_ACTIVE_VOICE = some 1 ∧
      (∀ i : Nat,
        s'.regs (voice_list_regs i).top = c4State.regs (voice_list_regs i).top)) :=
  ⟨by decide, by decide, by decide,
    claim_C4 c4State 7 5 (by decide) (by decide) (by decide) (by decide)
      (by decide)⟩

/-! ## C6: the processor reset handshake -/

theorem land_one_mod_two_pow_32 (v : Nat) :
    (v % 0x100000000) &&& 1 = v &&& 1 :=
  land_mod_two_pow_32 v 1 (by norm_num)

theorem land_two_mod_two_pow_32 (v : Nat) :
    (v % 0x100000000) &&& 2 = v &&& 2 :=
  land_mod_two_pow_32 v 2 (by norm_num)

/-- C6 (amended): `proc_rst_write` calls `reset` exactly when the written
value has `GPRST` or `GPDSPRST` cleared, calls `bootstrap` exactly when
the old value had one of them cleared and the new value has both set, and
the register then stores the (truncated) new value.  Two consecutive
writes with both reset bits set therefore produce at most one `bootstrap`
call — exactly one when the initial register value had `GPRST` or
`GPDSPRST` cleared, and none otherwise. -/
theorem claim_C6 :
    (∀ old v : Nat,
      (proc_rst_write old v = ProcRstAction.reset ↔
        (v &&& NV_PAPU_GPRST_GPRST = 0 ∨ v &&& NV_PAPU_GPRST_GPDSPRST = 0)) ∧
      (proc_rst_write old v = ProcRstAction.bootstrap ↔
        ((old &&& NV_PAPU_GPRST_GPRST = 0 ∨ old &&& NV_PAPU_GPRST_GPDSPRST = 0) ∧
          (v &&& NV_PAPU_GPRST_GPRST ≠ 0 ∧ v &&& NV_PAPU_GPRST_GPDSPRST ≠ 0))) ∧
      (∀ regs : Nat → Nat,
        (gp_write regs NV_PAPU_GPRST v).1 NV_PAPU_GPRST = v % 0x100000000)) ∧
    (∀ (regs : Nat → Nat) (v1 v2 : Nat),
      v1 &&& NV_PAPU_GPRST_GPRST ≠ 0 → v1 &&& NV_PAPU_GPRST_GPDSPRST ≠ 0 →
      v2 &&& NV_PAPU_GPRST_GPRST ≠ 0 → v2 &&& NV_PAPU_GPRST_GPDSPRST ≠ 0 →
      ((gp_write regs NV_PAPU_GPRST v1).2 ++
          (gp_write (gp_write regs NV_PAPU_GPRST v1).1 NV_PAPU_GPRST v2).2).count
            GPEv.dspBootstrap =
        if regs NV_PAPU_GPRST &&& NV_PAPU_GPRST_GPRST = 0 ∨
            regs NV_PAPU_GPRST &&& NV_PAPU_GPRST_GPDSPRST = 0 then 1 else 0) := by
  have hgp : ∀ (regs : Nat → Nat) (v : Nat),
      gp_write regs NV_PAPU_GPRST v =
        (upd regs NV_PAPU_GPRST (v % 0x100000000),
          match proc_rst_write (regs NV_PAPU_GPRST) (v % 0x100000000) with
          | .reset => [GPEv.dspReset]
          | .bootstrap => [GPEv.dspBootstrap]
          | .noCall => []) := by
    intro regs v
    unfold gp_write
    rw [if_neg (by decide), if_neg (by decide), if_neg (by decide),
      if_neg (by decide), if_pos rfl]
  constructor
  · intro old v
    refine ⟨?_, ?_, ?_⟩
    · unfold proc_rst_write
      by_cases h : v &&& NV_PAPU_GPRST_GPRST = 0 ∨ v &&& NV_PAPU_GPRST_GPDSPRST = 0
      · rw [if_pos h]; simp [h]
      · rw [if_neg h]; split <;> simp [h]
    · unfold proc_rst_write
      by_cases h1 : v &&& NV_PAPU_GPRST_GPRST = 0 ∨ v &&& NV_PAPU_GPRST_GPDSPRST = 0
      · rw [if_pos h1]
        rcases h1 with h | h <;> simp [h]
      · rw [if_neg h1]
        split
        · next h2 => simp only [eq_self_iff_true, true_iff]; exact h2
        · next h2 => simp [h2]
    · intro regs
      rw [hgp]
      simp only [upd_self]
  · intro regs v1 v2 h11 h12 h21 h22
    simp only [hgp, upd_self]
    have hrst2 : proc_rst_write (v1 % 0x100000000) (v2 % 0x100000000) =
        ProcRstAction.noCall := by
      unfold proc_rst_write
      rw [if_neg, if_neg]
      · simp only [NV_PAPU_GPRST_GPRST, NV_PAPU_GPRST_GPDSPRST,
          Nat.shiftLeft_zero, land_one_mod_two_pow_32, land_two_mod_two_pow_32,
          show ((1 : Nat) <<< 1) = 2 from rfl] at h11 h12 h21 h22 ⊢
        intro hc
        exact hc.1.elim h11 h12
      · simp only [NV_PAPU_GPRST_GPRST, NV_PAPU_GPRST_GPDSPRST,
          Nat.shiftLeft_zero, land_one_mod_two_pow_32, land_two_mod_two_pow_32,
          show ((1 : Nat) <<< 1) = 2 from rfl] at h21 h22 ⊢
        intro hc
        exact hc.elim h21 h22
    rw [hrst2]
    have h1m : (v1 % 0x100000000) &&& NV_PAPU_GPRST_GPRST ≠ 0 ∧
        (v1 % 0x100000000) &&& NV_PAPU_GPRST_GPDSPRST ≠ 0 := by
      simp only [NV_PAPU_GPRST_GPRST, NV_PAPU_GPRST_GPDSPRST,
        Nat.shiftLeft_zero, land_one_mod_two_pow_32, land_two_mod_two_pow_32,
        show ((1 : Nat) <<< 1) = 2 from rfl] at h11 h12 ⊢
      exact ⟨h11, h12⟩
    unfold proc_rst_write
    rw [if_neg (fun hc => hc.elim h1m.1 h1m.2)]
    by_cases hold : regs NV_PAPU_GPRST &&& NV_PAPU_GPRST_GPRST = 0 ∨
        regs NV_PAPU_GPRST &&& NV_PAPU_GPRST_GPDSPRST = 0
    · rw [if_pos ⟨hold, h1m⟩, if_pos hold]
      rfl
    · rw [if_neg (fun hc => hold hc.1), if_neg hold]
      rfl

/-- C6 as frozen is false in one corner: starting from a register that
already has both reset bits set, two consecutive writes with both bits set
produce zero `bootstrap` calls, not exactly one. -/
theorem claim_C6_counterexample :
    (3 : Nat) &&& NV_PAPU_GPRST_GPRST ≠ 0 ∧
    (3 : Nat) &&& NV_PAPU_GPRST_GPDSPRST ≠ 0 ∧
    ((gp_write (fun _ => 3) NV_PAPU_GPRST 3).2 ++
        (gp_write (gp_write (fun _ => 3) NV_PAPU_GPRST 3).1
          NV_PAPU_GPRST 3).2).count GPEv.dspBootstrap = 0 := by
  decide

/-- Witness for C6: from a cleared register, two writes of `0x3` bootstrap
exactly once. -/
theorem claim_C6_witness :
    (3 : Nat) &&& NV_PAPU_GPRST_GPRST ≠ 0 ∧
    ((gp_write (fun _ => 0) NV_PAPU_GPRST 3).2 ++
        (gp_write (gp_write (fun _ => 0) NV_PAPU_GPRST 3).1
          NV_PAPU_GPRST 3).2).count GPEv.dspBootstrap =
      if (fun _ => (0 : Nat)) NV_PAPU_GPRST &&& NV_PAPU_GPRST_GPRST = 0 ∨
          (fun _ => (0 : Nat)) NV_PAPU_GPRST &&& NV_PAPU_GPRST_GPDSPRST = 0
        then 1 else 0 :=
  ⟨by decide,
    claim_C6.2 (fun _ => 0) 3 3 (by decide) (by decide) (by decide) (by decide)⟩

/-! ## C10: unrecognized VP offsets are inert -/

/-- C10: a guest write to the VP command window at any offset other than
the five recognized method offsets — in particular at `SE2FE_IDLE_VOICE`
(0x8000) — neither dispatches to `fe_method` nor changes any state. -/
theorem claim_C10 (s : APUState) (val : Nat) :
    (∀ addr : Nat, addr ≠ NV1BA0_PIO_SET_ANTECEDENT_VOICE →
      addr ≠ NV1BA0_PIO_VOICE_ON → addr ≠ NV1BA0_PIO_VOICE_OFF →
      addr ≠ NV1BA0_PIO_VOICE_PAUSE → addr ≠ NV1BA0_PIO_SET_CURRENT_VOICE →
      vp_write s addr val = some s) ∧
    vp_write s SE2FE_IDLE_VOICE val = some s := by
  constructor
  · intro addr h1 h2 h3 h4 h5
    unfold vp_write
    rw [if_neg]
    intro hc
    rcases hc with h | h | h | h | h
    · exact h1 h
    · exact h2 h
    · exact h3 h
    · exact h4 h
    · exact h5 h
  · unfold vp_write
    rw [if_neg (by decide)]

/-- Witness for C10 at the internal idle-voice code and one arbitrary
offset. -/
theorem claim_C10_witness :
    vp_write c1State 0x200 9 = some c1State ∧
    vp_write c1State SE2FE_IDLE_VOICE 9 = some c1State :=
  ⟨(claim_C10 c1State 9).1 0x200 (by decide) (by decide) (by decide)
      (by decide) (by decide),
    (claim_C10 c1State 9).2⟩

/-! ## C2: circular DMA chunking and the new `cur` -/

theorem csg_wr_aux_cur (ramSize sge_base max_sge base e : Nat) :
    ∀ (fuel : Nat) (m : Nat → Nat) (cur : Nat) (buf : List Nat)
      (r : (Nat → Nat) × Nat),
      base ≤ cur → cur < e →
      csg_wr_aux ramSize sge_base max_sge base e fuel m cur buf = some r →
      r.2 = base + (cur - base + buf.length) % (e - base) := by
  intro fuel
  induction fuel with
  | zero =>
    intro m cur buf r hbc hce hs
    cases buf with
    | nil =>
      simp only [csg_wr_aux, List.isEmpty_nil, if_true] at hs
      cases hs
      simp only [List.length_nil, Nat.add_zero]
      rw [Nat.mod_eq_of_lt (by omega)]
      omega
    | cons b bs => simp [csg_wr_aux] at hs
  | succ fuel ih =>
    intro m cur buf r hbc hce hs
    cases buf with
    | nil =>
      simp only [csg_wr_aux, List.isEmpty_nil, if_true] at hs
      cases hs
      simp only [List.length_nil, Nat.add_zero]
      rw [Nat.mod_eq_of_lt (by omega)]
      omega
    | cons b bs =>
      simp only [csg_wr_aux, List.isEmpty_cons, Bool.false_eq_true,
        if_false] at hs
      rw [if_pos ⟨hbc, by omega⟩] at hs
      rcases Option.bind_eq_some.mp hs with ⟨m', hm', hs2⟩
      by_cases hwrap : e ≤ cur + min (e - cur) (b :: bs).length
      · rw [if_pos hwrap, if_pos (by omega)] at hs2
        have hr := ih m' base _ r (Nat.le_refl base) (by omega) hs2
        rw [hr, List.length_drop]
        simp only [Nat.sub_self, Nat.zero_add]
        have heq : cur - base + (b :: bs).length =
            (e - base) + ((b :: bs).length - min (e - cur) (b :: bs).length) := by
          omega
        rw [heq, Nat.add_mod_left]
      · rw [if_neg hwrap] at hs2
        have hkL : min (e - cur) (b :: bs).length = (b :: bs).length := by omega
        have hr := ih m' _ _ r (by omega) (by omega) hs2
        rw [hr, List.length_drop]
        rw [Nat.mod_eq_of_lt (by omega), Nat.mod_eq_of_lt (by omega)]
        omega

theorem csg_rd_aux_cur (ramSize sge_base max_sge base e : Nat) :
    ∀ (fuel : Nat) (m : Nat → Nat) (cur len : Nat) (r : List Nat × Nat),
      base ≤ cur → cur < e →
      csg_rd_aux ramSize sge_base max_sge base e fuel m cur len = some r →
      r.2 = base + (cur - base + len) % (e - base) := by
  intro fuel
  induction fuel with
  | zero =>
    intro m cur len r hbc hce hs
    by_cases hl : len = 0
    · subst hl
      simp only [csg_rd_aux, if_pos rfl] at hs
      cases hs
      simp only [Nat.add_zero]
      rw [Nat.mod_eq_of_lt (by omega)]
      omega
    · simp [csg_rd_aux, hl] at hs
  | succ fuel ih =>
    intro m cur len r hbc hce hs
    by_cases hl : len = 0
    · subst hl
      simp only [csg_rd_aux, if_pos rfl] at hs
      cases hs
      simp only [Nat.add_zero]
      rw [Nat.mod_eq_of_lt (by omega)]
      omega
    · simp only [csg_rd_aux, if_neg hl] at hs
      rw [if_pos ⟨hbc, by omega⟩] at hs
      rcases Option.bind_eq_some.mp hs with ⟨chunk, hchunk, hs2⟩
      by_cases hwrap : e ≤ cur + min (e - cur) len
      · rw [if_pos hwrap, if_pos (by omega)] at hs2
        rcases Option.bind_eq_some.mp hs2 with ⟨rest, hrest, hsome⟩
        cases hsome
        have hr := ih m base _ rest (Nat.le_refl base) (by omega) hrest
        show rest.2 = _
        rw [hr]
        simp only [Nat.sub_self, Nat.zero_add]
        have heq : cur - base + len =
            (e - base) + (len - min (e - cur) len) := by omega
        rw [heq, Nat.add_mod_left]
      · rw [if_neg hwrap] at hs2
        rcases Option.bind_eq_some.mp hs2 with ⟨rest, hrest, hsome⟩
        cases hsome
        have hr := ih m _ _ rest (by omega) (by omega) hrest
        show rest.2 = _
        rw [hr]
        rw [Nat.mod_eq_of_lt (by omega), Nat.mod_eq_of_lt (by omega)]
        omega

/-! ## C8 groundwork: transfers as address/byte lists -/

theorem zip_split (A B l : List Nat) (k : Nat) (hA : A.length = k)
    (hk : k ≤ l.length) :
    (A ++ B).zip l = A.zip (l.take k) ++ B.zip (l.drop k) := by
  conv_lhs => rw [← List.take_append_drop k l]
  exact List.zip_append (by rw [hA, List.length_take]; omega)

theorem storeBytes_out : ∀ (bs : List Nat) (m : Nat → Nat) (a x : Nat),
    x < a ∨ a + bs.length ≤ x → storeBytes m a bs x = m x := by
  intro bs
  induction bs with
  | nil => intro m a x _; rfl
  | cons b bs ih =>
    intro m a x hx
    simp only [List.length_cons] at hx
    show storeBytes (upd m a (b % 256)) (a + 1) bs x = m x
    rw [ih _ _ _ (by omega)]
    exact upd_ne m a (b % 256) x (by omega)

theorem writeList_out : ∀ (ps : List (Nat × Nat)) (m : Nat → Nat) (x : Nat),
    x ∉ ps.map Prod.fst → writeList m ps x = m x := by
  intro ps
  induction ps with
  | nil => intro m x _; rfl
  | cons p ps ih =>
    intro m x hx
    simp only [List.map_cons, List.mem_cons, not_or] at hx
    show writeList (upd m p.1 (p.2 % 256)) ps x = m x
    rw [ih _ _ hx.2]
    exact upd_ne m p.1 (p.2 % 256) x hx.1

theorem storeBytes_eq_writeList : ∀ (bs : List Nat) (m : Nat → Nat) (a : Nat),
    storeBytes m a bs = writeList m ((List.range' a bs.length).zip bs) := by
  intro bs
  induction bs with
  | nil => intro m a; rfl
  | cons b bs ih =>
    intro m a
    show storeBytes (upd m a (b % 256)) (a + 1) bs = _
    rw [ih, List.length_cons, List.range'_succ]
    rfl

theorem writeList_append : ∀ (ps qs : List (Nat × Nat)) (m : Nat → Nat),
    writeList m (ps ++ qs) = writeList (writeList m ps) qs := by
  intro ps
  induction ps with
  | nil => intro qs m; rfl
  | cons p ps ih => intro qs m; exact ih qs _

theorem ldl_congr (m1 m2 : Nat → Nat) (t : Nat)
    (h : ∀ x ∈ List.range' t 4, m1 x = m2 x) : ldl m1 t = ldl m2 t := by
  unfold ldl
  rw [h t (List.mem_range'_1.mpr (by omega)),
    h (t + 1) (List.mem_range'_1.mpr (by omega)),
    h (t + 2) (List.mem_range'_1.mpr (by omega)),
    h (t + 3) (List.mem_range'_1.mpr (by omega))]

theorem sgAddrsAux_length (sge_base : Nat) :
    ∀ (fuel : Nat) (m : Nat → Nat) (pe off len : Nat),
      len ≤ fuel → off < TARGET_PAGE_SIZE →
      (sgAddrsAux sge_base fuel m pe off len).length = len := by
  intro fuel
  induction fuel with
  | zero =>
    intro m pe off len hle _
    have : len = 0 := by omega
    subst this
    rfl
  | succ fuel ih =>
    intro m pe off len hle hoff
    by_cases hl : len = 0
    · subst hl; simp [sgAddrsAux]
    · simp only [sgAddrsAux, if_neg hl, List.length_append, List.length_range']
      simp only [TARGET_PAGE_SIZE] at hoff ⊢
      rw [ih _ _ _ _ (by omega) (by simp only [TARGET_PAGE_SIZE]; omega)]
      omega

theorem csgAddrsAux_length (sge_base base e : Nat) :
    ∀ (fuel : Nat) (m : Nat → Nat) (cur len : Nat),
      len ≤ fuel → base ≤ cur → cur < e →
      (csgAddrsAux sge_base base e fuel m cur len).length = len := by
  intro fuel
  induction fuel with
  | zero =>
    intro m cur len hle _ _
    have : len = 0 := by omega
    subst this
    rfl
  | succ fuel ih =>
    intro m cur len hle hbc hce
    by_cases hl : len = 0
    · subst hl; simp [csgAddrsAux]
    · simp only [csgAddrsAux, if_neg hl, List.length_append]
      rw [sgAddrsAux_length _ _ _ _ _ _ (Nat.le_refl _)
        (Nat.mod_lt _ (by simp only [TARGET_PAGE_SIZE]; omega))]
      by_cases hwrap : e ≤ cur + min (e - cur) len
      · rw [if_pos hwrap, ih _ _ _ (by omega) (Nat.le_refl base) (by omega)]
        omega
      · rw [if_neg hwrap, ih _ _ _ (by omega) (by omega) (by omega)]
        omega

theorem sgAddrsAux_congr (sge_base : Nat) :
    ∀ (fuel : Nat) (m1 m2 : Nat → Nat) (pe off len : Nat),
      (∀ t ∈ sgTableAddrsAux sge_base fuel pe off len, m1 t = m2 t) →
      sgAddrsAux sge_base fuel m1 pe off len =
        sgAddrsAux sge_base fuel m2 pe off len := by
  intro fuel
  induction fuel with
  | zero => intro m1 m2 pe off len _; rfl
  | succ fuel ih =>
    intro m1 m2 pe off len hag
    by_cases hl : len = 0
    · subst hl; rfl
    · simp only [sgAddrsAux, if_neg hl]
      simp only [sgTableAddrsAux, if_neg hl] at hag
      rw [ldl_congr m1 m2 _ (fun x hx => hag x (List.mem_append_left _ hx)),
        ih _ _ _ _ _ (fun t ht => hag t (List.mem_append_right _ ht))]

theorem csgAddrsAux_congr (sge_base base e : Nat) :
    ∀ (fuel : Nat) (m1 m2 : Nat → Nat) (cur len : Nat),
      (∀ t ∈ csgTableAddrsAux sge_base base e fuel cur len, m1 t = m2 t) →
      csgAddrsAux sge_base base e fuel m1 cur len =
        csgAddrsAux sge_base base e fuel m2 cur len := by
  intro fuel
  induction fuel with
  | zero => intro m1 m2 cur len _; rfl
  | succ fuel ih =>
    intro m1 m2 cur len hag
    by_cases hl : len = 0
    · subst hl; rfl
    · simp only [csgAddrsAux, if_neg hl]
      simp only [csgTableAddrsAux, if_neg hl] at hag
      rw [sgAddrsAux_congr _ _ _ _ _ _ _
          (fun t ht => hag t (List.mem_append_left _ ht)),
        ih _ _ _ _ (fun t ht => hag t (List.mem_append_right _ ht))]

/-- A successful guest-write through the linear primitive is exactly the
sequence of byte stores at its physical footprint, provided the footprint
avoids the consulted page-table bytes. -/
theorem sg_wr_aux_eq (ramSize sge_base max_sge : Nat) :
    ∀ (fuel : Nat) (m : Nat → Nat) (pe off : Nat) (buf : List Nat)
      (m' : Nat → Nat),
      sg_wr_aux ramSize sge_base max_sge fuel m pe off buf = some m' →
      (∀ x ∈ sgAddrsAux sge_base fuel m pe off buf.length,
        ∀ t ∈ sgTableAddrsAux sge_base fuel pe off buf.length, x ≠ t) →
      m' = writeList m
        ((sgAddrsAux sge_base fuel m pe off buf.length).zip buf) := by
  intro fuel
  induction fuel with
  | zero =>
    intro m pe off buf m' hs hdis
    cases buf with
    | nil =>
      simp only [sg_wr_aux, List.isEmpty_nil, if_true] at hs
      cases hs
      rfl
    | cons b bs => simp [sg_wr_aux] at hs
  | succ fuel ih =>
    intro m pe off buf m' hs hdis
    cases buf with
    | nil =>
      simp only [sg_wr_aux, List.isEmpty_nil, if_true] at hs
      cases hs
      simp [sgAddrsAux, writeList]
    | cons b bs =>
      simp only [sg_wr_aux, List.isEmpty_cons, Bool.false_eq_true,
        if_false] at hs
      by_cases hpe : pe ≤ max_sge
      · rw [if_pos hpe] at hs
        by_cases hram : ldl m (sge_base + pe * 8) + off +
            min (TARGET_PAGE_SIZE - off) (b :: bs).length < ramSize
        · rw [if_pos hram] at hs
          simp only [sgAddrsAux,
            if_neg (show ¬(b :: bs).length = 0 from by simp),
            sgTableAddrsAux] at hdis ⊢
          have hkle : min (TARGET_PAGE_SIZE - off) (b :: bs).length ≤
              (b :: bs).length := Nat.min_le_right _ _
          have htake : ((b :: bs).take
              (min (TARGET_PAGE_SIZE - off) (b :: bs).length)).length =
              min (TARGET_PAGE_SIZE - off) (b :: bs).length := by
            rw [List.length_take]
            omega
          have hchunk : ∀ x, ldl m (sge_base + pe * 8) + off ≤ x →
              x < ldl m (sge_base + pe * 8) + off +
                min (TARGET_PAGE_SIZE - off) (b :: bs).length →
              x ∈ List.range'
                (ldl m (sge_base + pe * 8) + off)
                (min (TARGET_PAGE_SIZE - off) (b :: bs).length) := by
            intro x h1 h2
            exact List.mem_range'_1.mpr ⟨h1, h2⟩
          have htb : ∀ t ∈ sgTableAddrsAux sge_base fuel (pe + 1) 0
              ((b :: bs).length - min (TARGET_PAGE_SIZE - off) (b :: bs).length),
              storeBytes m (ldl m (sge_base + pe * 8) + off)
                ((b :: bs).take (min (TARGET_PAGE_SIZE - off) (b :: bs).length))
                t = m t := by
            intro t ht
            apply storeBytes_out
            rw [htake]
            by_contra hcon
            push_neg at hcon
            exact hdis t
              (List.mem_append_left _ (hchunk t hcon.1 hcon.2))
              t (List.mem_append_right _ ht) rfl
          have haddr : sgAddrsAux sge_base fuel
              (storeBytes m (ldl m (sge_base + pe * 8) + off)
                ((b :: bs).take (min (TARGET_PAGE_SIZE - off) (b :: bs).length)))
              (pe + 1) 0
              ((b :: bs).length - min (TARGET_PAGE_SIZE - off) (b :: bs).length) =
              sgAddrsAux sge_base fuel m (pe + 1) 0
                ((b :: bs).length -
                  min (TARGET_PAGE_SIZE - off) (b :: bs).length) :=
            sgAddrsAux_congr _ _ _ _ _ _ _ htb
          have hdrop : ((b :: bs).drop
              (min (TARGET_PAGE_SIZE - off) (b :: bs).length)).length =
              (b :: bs).length - min (TARGET_PAGE_SIZE - off) (b :: bs).length :=
            List.length_drop _ _
          have hrec := ih _ _ _ _ _ hs
          rw [hdrop, haddr] at hrec
          have hrec2 := hrec (fun x hx t ht =>
            hdis x (List.mem_append_right _ hx) t (List.mem_append_right _ ht))
          rw [hrec2]
          rw [storeBytes_eq_writeList, htake, ← writeList_append]
          rw [zip_split _ _ _ _ (List.length_range' _ _ _) hkle]
        · rw [if_neg hram] at hs
          exact absurd hs (by simp)
      · rw [if_neg hpe] at hs
        exact absurd hs (by simp)

/-- A successful guest-read through the linear primitive returns exactly
the bytes at its physical footprint. -/
theorem sg_rd_aux_eq (ramSize sge_base max_sge : Nat) :
    ∀ (fuel : Nat) (m : Nat → Nat) (pe off len : Nat) (bytes : List Nat),
      sg_rd_aux ramSize sge_base max_sge fuel m pe off len = some bytes →
      bytes = (sgAddrsAux sge_base fuel m pe off len).map (fun x => m x % 256) := by
  intro fuel
  induction fuel with
  | zero =>
    intro m pe off len bytes hs
    by_cases hl : len = 0
    · subst hl
      simp only [sg_rd_aux, if_pos rfl] at hs
      cases hs
      rfl
    · simp [sg_rd_aux, hl] at hs
  | succ fuel ih =>
    intro m pe off len bytes hs
    by_cases hl : len = 0
    · subst hl
      simp only [sg_rd_aux, if_pos rfl] at hs
      cases hs
      rfl
    · simp only [sg_rd_aux, if_neg hl] at hs
      by_cases hpe : pe ≤ max_sge
      · rw [if_pos hpe] at hs
        by_cases hram : ldl m (sge_base + pe * 8) + off +
            min (TARGET_PAGE_SIZE - off) len < ramSize
        · rw [if_pos hram] at hs
          rcases Option.bind_eq_some.mp hs with ⟨rest, hrest, hsome⟩
          cases hsome
          simp only [sgAddrsAux, if_neg hl, List.map_append]
          rw [← ih _ _ _ _ _ hrest]
          congr 1
          unfold loadBytes
          rw [List.range'_eq_map_range, List.map_map]
          rfl
        · rw [if_neg hram] at hs
          exact absurd hs (by simp)
      · rw [if_neg hpe] at hs
        exact absurd hs (by simp)

/-- A successful circular guest-write is the sequence of byte stores at
its physical footprint, provided the footprint avoids the consulted
page-table bytes. -/
theorem csg_wr_aux_eq (ramSize sge_base max_sge base e : Nat) :
    ∀ (fuel : Nat) (m : Nat → Nat) (cur : Nat) (buf : List Nat)
      (r : (Nat → Nat) × Nat),
      csg_wr_aux ramSize sge_base max_sge base e fuel m cur buf = some r →
      (∀ x ∈ csgAddrsAux sge_base base e fuel m cur buf.length,
        ∀ t ∈ csgTableAddrsAux sge_base base e fuel cur buf.length, x ≠ t) →
      r.1 = writeList m
        ((csgAddrsAux sge_base base e fuel m cur buf.length).zip buf) := by
  intro fuel
  induction fuel with
  | zero =>
    intro m cur buf r hs hdis
    cases buf with
    | nil =>
      simp only [csg_wr_aux, List.isEmpty_nil, if_true] at hs
      cases hs
      rfl
    | cons b bs => simp [csg_wr_aux] at hs
  | succ fuel ih =>
    intro m cur buf r hs hdis
    cases buf with
    | nil =>
      simp only [csg_wr_aux, List.isEmpty_nil, if_true] at hs
      cases hs
      simp [csgAddrsAux, writeList]
    | cons b bs =>
      simp only [csg_wr_aux, List.isEmpty_cons, Bool.false_eq_true,
        if_false] at hs
      by_cases hguard : base ≤ cur ∧ cur + min (e - cur) (b :: bs).length ≤ e
      · rw [if_pos hguard] at hs
        rcases Option.bind_eq_some.mp hs with ⟨m1, hm1, hs2⟩
        have hkle : min (e - cur) (b :: bs).length ≤ (b :: bs).length :=
          Nat.min_le_right _ _
        have htake : ((b :: bs).take (min (e - cur) (b :: bs).length)).length =
            min (e - cur) (b :: bs).length := by
          rw [List.length_take]; omega
        have hmodlt : cur % TARGET_PAGE_SIZE < TARGET_PAGE_SIZE :=
          Nat.mod_lt _ (by simp only [TARGET_PAGE_SIZE]; omega)
        have hAlen : (sgAddrsAux sge_base (min (e - cur) (b :: bs).length) m
            (cur / TARGET_PAGE_SIZE) (cur % TARGET_PAGE_SIZE)
            (min (e - cur) (b :: bs).length)).length =
            min (e - cur) (b :: bs).length :=
          sgAddrsAux_length _ _ _ _ _ _ (Nat.le_refl _) hmodlt
        simp only [csgAddrsAux,
          if_neg (show ¬(b :: bs).length = 0 from by simp),
          csgTableAddrsAux] at hdis ⊢
        have hchunk_eq : m1 = writeList m
            ((sgAddrsAux sge_base (min (e - cur) (b :: bs).length) m
              (cur / TARGET_PAGE_SIZE) (cur % TARGET_PAGE_SIZE)
              (min (e - cur) (b :: bs).length)).zip
              ((b :: bs).take (min (e - cur) (b :: bs).length))) := by
          have := sg_wr_aux_eq ramSize sge_base max_sge
            ((b :: bs).take (min (e - cur) (b :: bs).length)).length m
            (cur / TARGET_PAGE_SIZE) (cur % TARGET_PAGE_SIZE)
            ((b :: bs).take (min (e - cur) (b :: bs).length)) m1 hm1
          rw [htake] at this
          exact this (fun x hx t ht =>
            hdis x (List.mem_append_left _ hx) t (List.mem_append_left _ ht))
        have hm1_tab : ∀ t ∈ csgTableAddrsAux sge_base base e fuel
            (if e ≤ cur + min (e - cur) (b :: bs).length then base
              else cur + min (e - cur) (b :: bs).length)
            ((b :: bs).length - min (e - cur) (b :: bs).length),
            m1 t = m t := by
          intro t ht
          rw [hchunk_eq]
          apply writeList_out
          rw [List.map_fst_zip _ _ (by rw [hAlen, htake])]
          intro hmem
          exact hdis t (List.mem_append_left _ hmem) t
            (List.mem_append_right _ ht) rfl
        have haddr := csgAddrsAux_congr sge_base base e fuel m1 m _ _ hm1_tab
        have hdrop : ((b :: bs).drop (min (e - cur) (b :: bs).length)).length =
            (b :: bs).length - min (e - cur) (b :: bs).length :=
          List.length_drop _ _
        by_cases hwrap : e ≤ cur + min (e - cur) (b :: bs).length
        · rw [if_pos hwrap, if_pos (by omega)] at hs2
          have hrec := ih m1 base _ r hs2
          rw [if_pos hwrap] at haddr
          rw [hdrop] at hrec
          rw [haddr] at hrec
          have hrec2 := hrec (fun x hx t ht =>
            hdis x (List.mem_append_right _ (by rw [if_pos hwrap]; exact hx)) t
              (by rw [if_pos hwrap]; exact List.mem_append_right _ ht))
          rw [hrec2, hchunk_eq, ← writeList_append]
          simp only [if_pos hwrap]
          rw [zip_split _ _ _ _ hAlen hkle]
        · rw [if_neg hwrap] at hs2
          have hrec := ih m1 _ _ r hs2
          rw [if_neg hwrap] at haddr
          rw [hdrop] at hrec
          rw [haddr] at hrec
          have hrec2 := hrec (fun x hx t ht =>
            hdis x (List.mem_append_right _ (by rw [if_neg hwrap]; exact hx)) t
              (by rw [if_neg hwrap]; exact List.mem_append_right _ ht))
          rw [hrec2, hchunk_eq, ← writeList_append]
          simp only [if_neg hwrap]
          rw [zip_split _ _ _ _ hAlen hkle]
      · rw [if_neg hguard] at hs
        exact absurd hs (by simp)

/-- A successful circular guest-read returns exactly the bytes at its
physical footprint. -/
theorem csg_rd_aux_eq (ramSize sge_base max_sge base e : Nat) :
    ∀ (fuel : Nat) (m : Nat → Nat) (cur len : Nat) (r : List Nat × Nat),
      csg_rd_aux ramSize sge_base max_sge base e fuel m cur len = some r →
      r.1 = (csgAddrsAux sge_base base e fuel m cur len).map
        (fun x => m x % 256) := by
  intro fuel
  induction fuel with
  | zero =>
    intro m cur len r hs
    by_cases hl : len = 0
    · subst hl
      simp only [csg_rd_aux, if_pos rfl] at hs
      cases hs
      rfl
    · simp [csg_rd_aux, hl] at hs
  | succ fuel ih =>
    intro m cur len r hs
    by_cases hl : len = 0
    · subst hl
      simp only [csg_rd_aux, if_pos rfl] at hs
      cases hs
      rfl
    · simp only [csg_rd_aux, if_neg hl] at hs
      by_cases hguard : base ≤ cur ∧ cur + min (e - cur) len ≤ e
      · rw [if_pos hguard] at hs
        rcases Option.bind_eq_some.mp hs with ⟨chunk, hchunk, hs2⟩
        simp only [csgAddrsAux, if_neg hl, List.map_append]
        have hchunk_eq : chunk = (sgAddrsAux sge_base (min (e - cur) len) m
            (cur / TARGET_PAGE_SIZE) (cur % TARGET_PAGE_SIZE)
            (min (e - cur) len)).map (fun x => m x % 256) :=
          sg_rd_aux_eq ramSize sge_base max_sge _ m _ _ _ chunk hchunk
        by_cases hwrap : e ≤ cur + min (e - cur) len
        · rw [if_pos hwrap, if_pos (by omega)] at hs2
          rcases Option.bind_eq_some.mp hs2 with ⟨rest, hrest, hsome⟩
          cases hsome
          show chunk ++ rest.1 = _
          rw [hchunk_eq, ih m base _ rest hrest, if_pos hwrap]
        · rw [if_neg hwrap] at hs2
          rcases Option.bind_eq_some.mp hs2 with ⟨rest, hrest, hsome⟩
          cases hsome
          show chunk ++ rest.1 = _
          rw [hchunk_eq, ih m _ _ rest hrest, if_neg hwrap]
      · rw [if_neg hguard] at hs
        exact absurd hs (by simp)

/-- Reading a list of pairwise-distinct addresses back after storing bytes
to them yields the stored bytes. -/
theorem writeList_readback : ∀ (addrs vals : List Nat) (m : Nat → Nat),
    addrs.Nodup → addrs.length = vals.length → (∀ v ∈ vals, v < 256) →
    addrs.map (fun x => writeList m (addrs.zip vals) x % 256) = vals := by
  intro addrs
  induction addrs with
  | nil =>
    intro vals m _ hlen _
    cases vals with
    | nil => rfl
    | cons v vs => simp at hlen
  | cons a as ih =>
    intro vals m hnd hlen hv
    cases vals with
    | nil => simp at hlen
    | cons v vs =>
      simp only [List.length_cons] at hlen
      rcases List.nodup_cons.mp hnd with ⟨hna, hnd'⟩
      show (a :: as).map
          (fun x => writeList (upd m a (v % 256)) (as.zip vs) x % 256) =
        v :: vs
      rw [List.map_cons]
      have h1 : writeList (upd m a (v % 256)) (as.zip vs) a % 256 = v := by
        rw [writeList_out _ _ _ (by
          rw [List.map_fst_zip _ _ (by omega)]
          exact hna), upd_self]
        rw [Nat.mod_mod_of_dvd _ (dvd_refl 256),
          Nat.mod_eq_of_lt (hv v (List.mem_cons_self v vs))]
      have h2 : as.map
          (fun x => writeList (upd m a (v % 256)) (as.zip vs) x % 256) = vs :=
        ih vs _ hnd' (by omega) (fun w hw => hv w (List.mem_cons_of_mem _ hw))
      rw [h1, h2]

/-- C8 (amended): a circular write followed by a circular read of the same
length at the same starting `cur` returns exactly the written bytes,
provided the transfer's physical byte footprint is duplicate-free and
disjoint from the consulted page-table bytes; the two transfers always
return the same `new_cur`. -/
theorem claim_C8 (ramSize sge_base max_sge base e cur : Nat) (buf : List Nat)
    (m : Nat → Nat) (w : (Nat → Nat) × Nat) (r : List Nat × Nat)
    (hbase : base ≤ cur) (hcur : cur < e)
    (hw : circular_scatter_gather_write ramSize m sge_base max_sge base e cur
      buf = some w)
    (hr : circular_scatter_gather_read ramSize w.1 sge_base max_sge base e cur
      buf.length = some r)
    (hbytes : ∀ v ∈ buf, v < 256)
    (hnd : (csgAddrsAux sge_base base e buf.length m cur buf.length).Nodup)
    (hdisj : ∀ x ∈ csgAddrsAux sge_base base e buf.length m cur buf.length,
      ∀ t ∈ csgTableAddrsAux sge_base base e buf.length cur buf.length,
        x ≠ t) :
    r.1 = buf ∧ r.2 = w.2 := by
  have hlen : (csgAddrsAux sge_base base e buf.length m cur
      buf.length).length = buf.length :=
    csgAddrsAux_length _ _ _ _ _ _ _ (Nat.le_refl _) hbase hcur
  have hw1 : w.1 = writeList m
      ((csgAddrsAux sge_base base e buf.length m cur buf.length).zip buf) :=
    csg_wr_aux_eq ramSize sge_base max_sge base e buf.length m cur buf w hw
      hdisj
  have htab : ∀ t ∈ csgTableAddrsAux sge_base base e buf.length cur
      buf.length, w.1 t = m t := by
    intro t ht
    rw [hw1]
    apply writeList_out
    rw [List.map_fst_zip _ _ (by omega)]
    intro hmem
    exact hdisj t hmem t ht rfl
  have haddr : csgAddrsAux sge_base base e buf.length w.1 cur buf.length =
      csgAddrsAux sge_base base e buf.length m cur buf.length :=
    csgAddrsAux_congr _ _ _ _ _ _ _ _ htab
  have hr1 : r.1 = (csgAddrsAux sge_base base e buf.length m cur
      buf.length).map (fun x => w.1 x % 256) := by
    have := csg_rd_aux_eq ramSize sge_base max_sge base e buf.length w.1 cur
      buf.length r hr
    rwa [haddr] at this
  constructor
  · rw [hw1] at hr1
    rw [hr1]
    exact writeList_readback _ buf m hnd (by omega) hbytes
  · rw [csg_wr_aux_cur ramSize sge_base max_sge base e buf.length m cur buf w
        hbase hcur hw,
      csg_rd_aux_cur ramSize sge_base max_sge base e buf.length w.1 cur
        buf.length r hbase hcur hr]

/-- C8 as frozen is false: with window `[0, 2)` and a 4-byte transfer the
write wraps over itself, so the read returns `[3, 4, 3, 4]`, not the
written bytes `[1, 2, 3, 4]` (the two `new_cur` do agree). -/
theorem claim_C8_counterexample :
    (circular_scatter_gather_write 0x100000 c8Mem 0x8000 4 0 2 0
        [1, 2, 3, 4]).bind
      (fun w => (circular_scatter_gather_read 0x100000 w.1 0x8000 4 0 2 0
        4).map (fun r => (r.1, r.2, w.2))) = some ([3, 4, 3, 4], 0, 0) ∧
    ([3, 4, 3, 4] : List Nat) ≠ [1, 2, 3, 4] := by
  decide

/-- Witness for C8: a 3-byte transfer in window `[0, 0x10)` through the
`c8Mem` page table round-trips. -/
theorem claim_C8_witness :
    ∃ (w : (Nat → Nat) × Nat) (r : List Nat × Nat),
      circular_scatter_gather_write 0x100000 c8Mem 0x8000 4 0 0x10 0
          [1, 2, 3] = some w ∧
      circular_scatter_gather_read 0x100000 w.1 0x8000 4 0 0x10 0 3 =
        some r ∧
      r.1 = [1, 2, 3] ∧ r.2 = w.2 := by
  refine ⟨_, _, rfl, rfl, ?_⟩
  exact claim_C8 0x100000 0x8000 4 0 0x10 0 [1, 2, 3] c8Mem _ _
    (by decide) (by decide) rfl rfl (by decide) (by decide) (by decide)

/-- C2: a circular transfer proceeds through the linear primitive in
chunks of `min(end - cur, remaining)` bytes, `cur` wrapping to `base`
exactly at `end`, so the returned `new_cur` is the position one past the
last byte transferred, modulo the window; concretely, scenario S6 (window
`[0x100, 0x140)`, `cur = 0x130`, 0x20 bytes written through an
identity-mapping page table) places the first 0x10 bytes at
`[0x130, 0x140)`, the next 0x10 bytes at `[0x100, 0x110)` and returns
`new_cur = 0x110`. -/
theorem claim_C2 (ramSize sge_base max_sge base e : Nat) :
    (∀ (m : Nat → Nat) (cur : Nat) (buf : List Nat) (r : (Nat → Nat) × Nat),
      base ≤ cur → cur < e →
      circular_scatter_gather_write ramSize m sge_base max_sge base e cur buf =
        some r →
      r.2 = base + (cur - base + buf.length) % (e - base)) ∧
    (∀ (m : Nat → Nat) (cur len : Nat) (r : List Nat × Nat),
      base ≤ cur → cur < e →
      circular_scatter_gather_read ramSize m sge_base max_sge base e cur len =
        some r →
      r.2 = base + (cur - base + len) % (e - base)) ∧
    ((circular_scatter_gather_write 0x100000 (fun _ => 0) 0x8000 4
        0x100 0x140 0x130 ((List.range 0x20).map (fun i => i + 1))).map
      (fun r => (r.2, loadBytes r.1 0x130 0x10, loadBytes r.1 0x100 0x10)) =
      some (0x110, ((List.range 0x20).map (fun i => i + 1)).take 0x10,
        ((List.range 0x20).map (fun i => i + 1)).drop 0x10)) := by
  refine ⟨?_, ?_, by decide⟩
  · intro m cur buf r hbc hce hs
    exact csg_wr_aux_cur ramSize sge_base max_sge base e buf.length m cur buf r
      hbc hce hs
  · intro m cur len r hbc hce hs
    exact csg_rd_aux_cur ramSize sge_base max_sge base e len m cur len r
      hbc hce hs

/-- Witness for C2 at the S6 configuration. -/
theorem claim_C2_witness :
    (0x100 : Nat) ≤ 0x130 ∧ (0x130 : Nat) < 0x140 ∧
    (∀ (m : Nat → Nat) (cur : Nat) (buf : List Nat) (r : (Nat → Nat) × Nat),
      0x100 ≤ cur → cur < 0x140 →
      circular_scatter_gather_write 0x100000 m 0x8000 4 0x100 0x140 cur buf =
        some r →
      r.2 = 0x100 + (cur - 0x100 + buf.length) % (0x140 - 0x100)) :=
  ⟨by decide, by decide, (claim_C2 0x100000 0x8000 4 0x100 0x140).1⟩

/-! ## C9: the frame scheduler kicks the processors by reset state -/

theorem voice_set_mask_gp (s : APUState) (a b c d : Nat) (s' : APUState)
    (h : voice_set_mask s a b c d = some s') :
    s'.gpRegs = s.gpRegs ∧ s'.epRegs = s.epRegs := by
  unfold voice_set_mask at h
  by_cases hv : a < 0xFFFF
  · rw [if_pos hv] at h
    cases h
    exact ⟨rfl, rfl⟩
  · rw [if_neg hv] at h
    exact absurd h (by simp)

theorem update_irq_gp (s : APUState) :
    (update_irq s).gpRegs = s.gpRegs ∧ (update_irq s).epRegs = s.epRegs := by
  unfold update_irq
  split <;> exact ⟨rfl, rfl⟩

theorem fe_method_gp (s : APUState) (meth arg : Nat) (s' : APUState)
    (h : fe_method s meth arg = some s') :
    s'.gpRegs = s.gpRegs ∧ s'.epRegs = s.epRegs := by
  simp only [fe_method] at h
  split at h
  · cases h; exact ⟨rfl, rfl⟩
  · split at h
    · split at h
      · rcases Option.bind_eq_some.mp h with ⟨s1, hs1, h2⟩
        rcases Option.bind_eq_some.mp h2 with ⟨y, hy, h3⟩
        cases hy
        have hg1 := voice_set_mask_gp _ _ _ _ _ _ hs1
        have hg2 := voice_set_mask_gp _ _ _ _ _ _ h3
        exact ⟨hg2.1.trans hg1.1, hg2.2.trans hg1.2⟩
      · split at h
        · exact Option.noConfusion h
        · rcases Option.bind_eq_some.mp h with ⟨nh, hnh, h2⟩
          rcases Option.bind_eq_some.mp h2 with ⟨s1, hs1, h3⟩
          rcases Option.bind_eq_some.mp h3 with ⟨s2, hs2, h4⟩
          have hg1 := voice_set_mask_gp _ _ _ _ _ _ hs1
          have hg2 := voice_set_mask_gp _ _ _ _ _ _ hs2
          have hg3 := voice_set_mask_gp _ _ _ _ _ _ h4
          exact ⟨hg3.1.trans (hg2.1.trans hg1.1),
            hg3.2.trans (hg2.2.trans hg1.2)⟩
    · split at h
      · have hx := voice_set_mask_gp _ _ _ _ _ _ h
        exact ⟨hx.1, hx.2⟩
      · split at h
        · have hx := voice_set_mask_gp _ _ _ _ _ _ h
          exact ⟨hx.1, hx.2⟩
        · split at h
          · cases h; exact ⟨rfl, rfl⟩
          · split at h
            · split at h
              · cases h; exact ⟨(update_irq_gp _).1, (update_irq_gp _).2⟩
              · exact absurd h (by simp)
            · exact absurd h (by simp)

theorem se_frame_voice_step_gp (s : APUState) (mix : Mix) (c n : Nat)
    (s' : APUState) (mix' : Mix)
    (h : se_frame_voice_step s mix c n = some (s', mix')) :
    s'.gpRegs = s.gpRegs ∧ s'.epRegs = s.epRegs ∧ mix' = mix := by
  simp only [se_frame_voice_step] at h
  rcases Option.bind_eq_some.mp h with ⟨nxt, hnxt, h2⟩
  rcases Option.bind_eq_some.mp h2 with ⟨act, hact, h3⟩
  split at h3
  · rcases Option.bind_eq_some.mp h3 with ⟨st, hst, h4⟩
    rcases Option.bind_eq_some.mp h4 with ⟨y, hy, h5⟩
    cases hy
    injection Option.some.inj h5 with h6 h7
    subst h6
    subst h7
    have hx := fe_method_gp _ _ _ _ hst
    exact ⟨hx.1, hx.2, rfl⟩
  · rcases Option.bind_eq_some.mp h3 with ⟨y, hy, h5⟩
    cases hy
    injection Option.some.inj h5 with h6 h7
    subst h6
    subst h7
    exact ⟨rfl, rfl, rfl⟩

theorem se_frame_list_aux_gp (c n : Nat) :
    ∀ (fuel : Nat) (s : APUState) (mix : Mix) (r : APUState × Mix),
      se_frame_list_aux c n fuel s mix = some r →
      r.1.gpRegs = s.gpRegs ∧ r.1.epRegs = s.epRegs ∧ r.2 = mix := by
  intro fuel
  induction fuel with
  | zero =>
    intro s mix r h
    simp only [se_frame_list_aux] at h
    split at h
    · cases h; exact ⟨rfl, rfl, rfl⟩
    · exact absurd h (by simp)
  | succ fuel ih =>
    intro s mix r h
    simp only [se_frame_list_aux] at h
    split at h
    · cases h; exact ⟨rfl, rfl, rfl⟩
    · rcases Option.bind_eq_some.mp h with ⟨p, hp, hrec⟩
      obtain ⟨ps, pm⟩ := p
      have h1 := se_frame_voice_step_gp _ _ _ _ _ _ hp
      have h2 := ih _ _ _ hrec
      exact ⟨h2.1.trans h1.1, h2.2.1.trans h1.2.1, h2.2.2.trans h1.2.2⟩

theorem se_frame_one_list_gp (fuel : Nat) (s : APUState) (mix : Mix)
    (l : VoiceListRegs) (r : APUState × Mix)
    (h : se_frame_one_list fuel s mix l = some r) :
    r.1.gpRegs = s.gpRegs ∧ r.1.epRegs = s.epRegs ∧ r.2 = mix := by
  unfold se_frame_one_list at h
  have hx := se_frame_list_aux_gp l.current l.next fuel _ mix r h
  exact hx

/-- No `dspStartFrame` or `dspRun` call hides among the mix-publication
writes. -/
theorem mix_publish_evs_writes (mix : Mix) (ev : Ev)
    (h : ev ∈ mix_publish_evs mix) :
    ∃ a v, ev = Ev.dspWrite true 'X' a v := by
  unfold mix_publish_evs at h
  rcases List.mem_flatten.mp h with ⟨l, hl, hev⟩
  rcases List.mem_map.mp hl with ⟨mixbin, _, hmap⟩
  subst hmap
  rcases List.mem_map.mp hev with ⟨sample, _, hs⟩
  exact ⟨_, _, hs.symm⟩

/-- C9: on a completed frame tick, `gp.start_frame()` then `gp.run(1000)`
are invoked iff the GP reset register had both `GPRST` and `GPDSPRST`
set, `ep.start_frame()` iff the EP reset register had both set, no `run`
is issued for the EP, and these kickoff calls come after the mix
publication writes. -/
theorem claim_C9 (fuel : Nat) (s s' : APUState) (evs : List Ev)
    (hs : se_frame fuel s = some (s', evs)) :
    ((Ev.dspStartFrame true ∈ evs) ↔
      (s.gpRegs NV_PAPU_GPRST &&& NV_PAPU_GPRST_GPRST ≠ 0 ∧
        s.gpRegs NV_PAPU_GPRST &&& NV_PAPU_GPRST_GPDSPRST ≠ 0)) ∧
    ((Ev.dspRun true 1000 ∈ evs) ↔
      (s.gpRegs NV_PAPU_GPRST &&& NV_PAPU_GPRST_GPRST ≠ 0 ∧
        s.gpRegs NV_PAPU_GPRST &&& NV_PAPU_GPRST_GPDSPRST ≠ 0)) ∧
    ((Ev.dspStartFrame false ∈ evs) ↔
      (s.epRegs NV_PAPU_EPRST &&& NV_PAPU_GPRST_GPRST ≠ 0 ∧
        s.epRegs NV_PAPU_EPRST &&& NV_PAPU_GPRST_GPDSPRST ≠ 0)) ∧
    (∀ cycles : Nat, Ev.dspRun false cycles ∉ evs) ∧
    evs = mix_publish_evs (fun _ _ => 0) ++
      (if s.gpRegs NV_PAPU_GPRST &&& NV_PAPU_GPRST_GPRST ≠ 0 ∧
          s.gpRegs NV_PAPU_GPRST &&& NV_PAPU_GPRST_GPDSPRST ≠ 0 then
        [Ev.dspStartFrame true, Ev.dspRun true 1000] else []) ++
      (if s.epRegs NV_PAPU_EPRST &&& NV_PAPU_GPRST_GPRST ≠ 0 ∧
          s.epRegs NV_PAPU_EPRST &&& NV_PAPU_GPRST_GPDSPRST ≠ 0 then
        [Ev.dspStartFrame false] else []) := by
  simp only [se_frame, se_frame_one_list] at hs
  rcases Option.bind_eq_some.mp hs with ⟨p1, hp1, hs2⟩
  rcases Option.bind_eq_some.mp hs2 with ⟨p2, hp2, hs3⟩
  rcases Option.bind_eq_some.mp hs3 with ⟨p3, hp3, hs4⟩
  have hg1 := se_frame_list_aux_gp _ _ fuel _ _ _ hp1
  have hg2 := se_frame_list_aux_gp _ _ fuel _ _ _ hp2
  have hg3 := se_frame_list_aux_gp _ _ fuel _ _ _ hp3
  have hgp : p3.1.gpRegs = s.gpRegs := hg3.1.trans (hg2.1.trans hg1.1)
  have hep : p3.1.epRegs = s.epRegs :=
    hg3.2.1.trans (hg2.2.1.trans hg1.2.1)
  have hmix : p3.2 = (fun _ _ => 0 : Mix) :=
    hg3.2.2.trans (hg2.2.2.trans hg1.2.2)
  injection Option.some.inj hs4 with hse heve
  subst hse
  subst heve
  have hns : ∀ b : Bool,
      (Ev.dspStartFrame b ∈ mix_publish_evs fun _ _ => 0) = False := by
    intro b
    simp only [eq_iff_iff, iff_false]
    intro hmem
    rcases mix_publish_evs_writes _ _ hmem with ⟨a, v, hv⟩
    cases hv
  have hnr : ∀ (b : Bool) (cy : Nat),
      (Ev.dspRun b cy ∈ mix_publish_evs fun _ _ => 0) = False := by
    intro b cy
    simp only [eq_iff_iff, iff_false]
    intro hmem
    rcases mix_publish_evs_writes _ _ hmem with ⟨a, v, hv⟩
    cases hv
  simp only [hgp, hep, hmix]
  by_cases hcg : s.gpRegs NV_PAPU_GPRST &&& NV_PAPU_GPRST_GPRST ≠ 0 ∧
      s.gpRegs NV_PAPU_GPRST &&& NV_PAPU_GPRST_GPDSPRST ≠ 0 <;>
    by_cases hce : s.epRegs NV_PAPU_EPRST &&& NV_PAPU_GPRST_GPRST ≠ 0 ∧
      s.epRegs NV_PAPU_EPRST &&& NV_PAPU_GPRST_GPDSPRST ≠ 0 <;>
    simp [hcg, hce, List.mem_append, hns, hnr]

/-- Witness for C9: on a concrete completed tick the GP is kicked and the
EP is not. -/
theorem claim_C9_witness :
    ∃ r, se_frame 4 c9State = some r ∧
      ((Ev.dspStartFrame true ∈ r.2) ↔
        (c9State.gpRegs NV_PAPU_GPRST &&& NV_PAPU_GPRST_GPRST ≠ 0 ∧
          c9State.gpRegs NV_PAPU_GPRST &&& NV_PAPU_GPRST_GPDSPRST ≠ 0)) ∧
      ((Ev.dspStartFrame false ∈ r.2) ↔
        (c9State.epRegs NV_PAPU_EPRST &&& NV_PAPU_GPRST_GPRST ≠ 0 ∧
          c9State.epRegs NV_PAPU_EPRST &&& NV_PAPU_GPRST_GPDSPRST ≠ 0)) ∧
      (∀ cycles : Nat, Ev.dspRun false cycles ∉ r.2) := by
  refine ⟨_, rfl, ?_⟩
  have h := claim_C9 4 c9State _ _ rfl
  exact ⟨h.1, h.2.2.1, h.2.2.2.1⟩

/-- Witness for C7 at a concrete state and bit. -/
theorem claim_C7_witness :
    ((c1State.regs NV_PAPU_ISTS &&&
        (0xFFFFFFFF ^^^ (0x10 % 0x100000000))).testBit 4 =
      ((c1State.regs NV_PAPU_ISTS).testBit 4 && !((0x10 : Nat).testBit 4))) ∧
    (4 ≠ 0 →
      ((mcpx_apu_write c1State NV_PAPU_ISTS 0x10).regs NV_PAPU_ISTS).testBit 4 =
        ((c1State.regs NV_PAPU_ISTS).testBit 4 && !((0x10 : Nat).testBit 4))) :=
  claim_C7 c1State 0x10 4 (by decide)

end MCPXAPU
